import Mathlib

/-!
Verification development for the text-to-visual compiler implemented in
`visual_agent.py` (class `VisualAgent`).  The Python source is shallowly
embedded: each method becomes a Lean function over `String` / `List Char`,
and every regular expression used by the source is implemented as a bespoke
scanner with the same matching semantics (leftmost match, greedy/lazy
quantifiers, `re.IGNORECASE` as ASCII case folding, `\b` word boundaries).
Python `float` arithmetic is modelled by exact rationals (`ℚ`); division is
modelled as a partial operation (`Option`) so that `ZeroDivisionError` is
visible; `math.cos`/`math.sin`/float formatting are modelled by an abstract
numeric backend, since IEEE-754 transcendental behaviour is outside the
embedding (all theorems below are proved for every backend).
-/

namespace VA

/-- Characters treated as whitespace by Python's `str.strip` and the regex
class `\s` (ASCII range; the source only manipulates ASCII-ish text). -/
def isPyWs (c : Char) : Bool :=
  c = ' ' || c = '\t' || c = '\n' || c = '\r' || c = '\x0b' || c = '\x0c'

/-- Word characters for the regex `\b` boundary and `\w` (ASCII model of
Python's word characters: letters, digits, underscore). -/
def isWordChar (c : Char) : Bool :=
  c.isAlpha || c.isDigit || c = '_'

/-- Case-insensitive character equality (model of `re.IGNORECASE`, ASCII). -/
def eqCI (a b : Char) : Bool :=
  a.toLower = b.toLower

/-- Match a literal character sequence case-insensitively at the head of the
input; on success return the remainder. -/
def litCI : List Char → List Char → Option (List Char)
  | [], cs => some cs
  | _ :: _, [] => none
  | w :: ws, c :: cs => if eqCI w c then litCI ws cs else none

/-- Length of the longest prefix whose characters satisfy `p`. -/
def countLeading (p : Char → Bool) : List Char → Nat
  | [] => 0
  | c :: cs => if p c then countLeading p cs + 1 else 0

/-- Python `str.strip()` on a character list. -/
def pyStripL (cs : List Char) : List Char :=
  ((cs.dropWhile isPyWs).reverse.dropWhile isPyWs).reverse

/-- Python `str.strip()`. -/
def pyStrip (s : String) : String :=
  ⟨pyStripL s.data⟩

/-- Python `str.lower()` (ASCII model). -/
def pyLower (s : String) : String :=
  ⟨s.data.map Char.toLower⟩

/-- Truthiness of a Python string (`if s:`): non-empty. -/
def pyTruthy (s : String) : Bool :=
  s ≠ ""

/-- Substring containment (Python `needle in haystack`). -/
def containsSub (needle : List Char) : List Char → Bool
  | [] => needle.isEmpty
  | c :: cs => (litCI' needle (c :: cs)).isSome || containsSub needle cs
where
  /-- Case-sensitive literal prefix match used by substring containment. -/
  litCI' : List Char → List Char → Option (List Char)
    | [], cs => some cs
    | _ :: _, [] => none
    | w :: ws, c :: cs => if w = c then litCI' ws cs else none

/-! ### Classifier regular expressions (`detect_visual_type`) -/

/-- Length of a match of `[:=]\s*\d+` starting exactly at the head of the
input (`none` when no match starts here). -/
def kvMatchLen : List Char → Option Nat
  | [] => none
  | c :: cs =>
    if c = ':' || c = '=' then
      let w := countLeading isPyWs cs
      let rest := cs.drop w
      let d := countLeading Char.isDigit rest
      if d = 0 then none else some (1 + w + d)
    else none

/-- Model of `re.search(r'[:=]\s*\d+', text)` (does a match exist?). -/
def searchKVAux : List Char → Bool
  | [] => false
  | c :: cs => (kvMatchLen (c :: cs)).isSome || searchKVAux cs

/-- Model of `len(re.findall(r'[:=]\s*\d+', text))`: count of non-overlapping
leftmost matches. -/
def countKVAux : List Char → Nat
  | [] => 0
  | c :: cs =>
    match kvMatchLen (c :: cs) with
    | some n => 1 + countKVAux (cs.drop (n - 1))
    | none => countKVAux cs
termination_by l => l.length
decreasing_by
  all_goals simp only [List.length_drop, List.length_cons]; omega

/-- Does the word `w` (case-insensitive) match at the head of the input with
a `\b` boundary after it? (The boundary before is checked by the caller.) -/
def wordHere (w : List Char) (cs : List Char) : Bool :=
  match litCI w cs with
  | some [] => true
  | some (c :: _) => !isWordChar c
  | none => false

/-- Model of `re.search(r'\b(w1|w2|...)\b', text, re.IGNORECASE)` for a list
of alternative words (each starting with a word character): scan positions
carrying whether the previous character was a word character. -/
def searchWordAux (alts : List (List Char)) : Bool → List Char → Bool
  | _, [] => false
  | prevW, c :: cs =>
    (!prevW && alts.any fun a => wordHere a (c :: cs))
    || searchWordAux alts (isWordChar c) cs

/-- Model of `re.search(r'\b(yes|no)\s*:', line, re.IGNORECASE)` at one
position: `yes` or `no` (case-insensitive), then `\s*`, then `:`.
There is no boundary requirement after the word in the source pattern. -/
def yesNoColonHere (cs : List Char) : Bool :=
  match litCI ['y', 'e', 's'] cs <|> litCI ['n', 'o'] cs with
  | some rest =>
    match rest.drop (countLeading isPyWs rest) with
    | ':' :: _ => true
    | _ => false
  | none => false

/-- Scan for `\b(yes|no)\s*:` anywhere in the input. -/
def searchYesNoColonAux : Bool → List Char → Bool
  | _, [] => false
  | prevW, c :: cs =>
    (!prevW && yesNoColonHere (c :: cs)) || searchYesNoColonAux (isWordChar c) cs

/-- Model of `re.search(r'\bif\b[\s\S]*\bthen\b', text, re.IGNORECASE)`:
some word occurrence of `if` followed (at any distance) by a word occurrence
of `then`. -/
def hasIfThenAux : Bool → List Char → Bool
  | _, [] => false
  | prevW, c :: cs =>
    (!prevW &&
      (match litCI ['i', 'f'] (c :: cs) with
       | some rest =>
         (match rest with
          | [] => false
          | r :: _ => !isWordChar r) && searchWordAux [['t', 'h', 'e', 'n']] true rest
       | none => false))
    || hasIfThenAux (isWordChar c) cs

/-- Alternatives of the quarter/month pattern in `detect_visual_type`. -/
def monthAlts : List (List Char) :=
  [['q', '1'], ['q', '2'], ['q', '3'], ['q', '4'],
   ['j', 'a', 'n'], ['f', 'e', 'b'], ['m', 'a', 'r'], ['a', 'p', 'r'],
   ['m', 'a', 'y'], ['j', 'u', 'n'], ['j', 'u', 'l'], ['a', 'u', 'g'],
   ['s', 'e', 'p'], ['o', 'c', 't'], ['n', 'o', 'v'], ['d', 'e', 'c']]

/-- Alternatives of the flow-keyword pattern in `detect_visual_type`. -/
def flowKeywordAlts : List (List Char) :=
  [['s', 't', 'a', 'r', 't'], ['b', 'e', 'g', 'i', 'n'], ['e', 'n', 'd'],
   ['f', 'i', 'n', 'i', 's', 'h'], ['s', 't', 'e', 'p'],
   ['p', 'r', 'o', 'c', 'e', 's', 's']]

/-- Source line 75: `bool(re.search(r'[:=]\s*\d+', text))`. -/
def has_key_value (text : String) : Bool :=
  searchKVAux text.data

/-- Source line 78: `len(re.findall(r'[:=]\s*\d+', text))`. -/
def count_key_value (text : String) : Nat :=
  countKVAux text.data

/-- Source lines 76-77: the quarter/month search. -/
def has_quarter_or_month (text : String) : Bool :=
  searchWordAux monthAlts false text.data

/-- Source lines 82-83: flow-keyword search (applied to the lowered text). -/
def has_flow_keywords (textLower : String) : Bool :=
  searchWordAux flowKeywordAlts false textLower.data

/-- Source line 84: `'?' in text`. -/
def has_decision (text : String) : Bool :=
  text.data.contains '?'

/-- Source line 85: `bool(re.search(r'\b(yes|no)\s*:', text, re.IGNORECASE))`. -/
def has_yes_no (text : String) : Bool :=
  searchYesNoColonAux false text.data

/-- Source lines 86-87: the `if ... then` search. -/
def has_if_then (text : String) : Bool :=
  hasIfThenAux false text.data

/-- The chart-signal condition of `detect_visual_type` (source line 78):
`(has_key_value and has_quarter_or_month) or len(findall) >= 3`. -/
def chart_signal (text : String) : Bool :=
  (has_key_value text && has_quarter_or_month text) || decide (count_key_value text ≥ 3)

/-- The three members of the `VisualType` enum. -/
inductive VisualType
  | flowchart
  | diagram
  | chart
deriving DecidableEq, Repr

/-- String value of a `VisualType` member (its `.value` in Python). -/
def VisualType.value : VisualType → String
  | .flowchart => "flowchart"
  | .diagram => "diagram"
  | .chart => "chart"

/-- Model of `detect_visual_type` (source lines 67-93).  A non-`auto` hint is
converted with the `VisualType` enum constructor, which raises `ValueError`
for a value outside the three members; the raise is modelled as
`Except.error`.  With hint `auto` the heuristics run and always return. -/
def detect_visual_type (text : String) (preferred_type : String) : Except String VisualType :=
  if preferred_type ≠ "auto" then
    if preferred_type = "flowchart" then .ok .flowchart
    else if preferred_type = "diagram" then .ok .diagram
    else if preferred_type = "chart" then .ok .chart
    else .error (preferred_type ++ " is not a valid VisualType")
  else
    let text_lower := pyLower text
    if chart_signal text then .ok .chart
    else if has_flow_keywords text_lower || has_decision text || has_yes_no text
        || has_if_then text then .ok .flowchart
    else .ok .diagram

/-! ### Claims C6, C8, C9 about the classifier -/

/-- C6: for every text satisfying the chart signal (key-colon-number pattern
together with a quarter/month token, or at least three key-colon-number
occurrences), `detect_visual_type(text, "auto")` returns `Chart` — the chart
rule is tested before the flowchart rule, so this holds even when the text
also contains flowchart signals. -/
theorem detect_chart_first (text : String) (h : chart_signal text = true) :
    detect_visual_type text "auto" = .ok .chart := by
  simp [detect_visual_type, h]

/-- Witness for C6: a text carrying both a chart signal and flowchart
signals (flow keyword `start`, month token `jan`) classifies as `Chart`. -/
theorem detect_chart_first_witness :
    chart_signal "start jan: 5" = true
      ∧ has_flow_keywords (pyLower "start jan: 5") = true
      ∧ detect_visual_type "start jan: 5" "auto" = .ok .chart :=
  ⟨by decide, by decide, detect_chart_first "start jan: 5" (by decide)⟩

/-- C8: for every hint outside the four literals `auto`, `flowchart`,
`diagram`, `chart`, `detect_visual_type` signals an invalid-argument
condition (the `VisualType` constructor raises `ValueError`) for every text,
rather than silently defaulting. -/
theorem detect_invalid_hint_errors (text hint : String)
    (h1 : hint ≠ "auto") (h2 : hint ≠ "flowchart")
    (h3 : hint ≠ "diagram") (h4 : hint ≠ "chart") :
    ∃ msg, detect_visual_type text hint = .error msg := by
  exact ⟨hint ++ " is not a valid VisualType", by simp [detect_visual_type, h1, h2, h3, h4]⟩

/-- Witness for C8: the hint `pie` is rejected. -/
theorem detect_invalid_hint_errors_witness :
    ∃ msg, detect_visual_type "Start" "pie" = .error msg :=
  detect_invalid_hint_errors "Start" "pie" (by decide) (by decide) (by decide) (by decide)

/-- C9: for every text, `detect_visual_type(text, "auto")` is total: it
never raises and always returns one of the three kinds. -/
theorem detect_auto_total (text : String) :
    ∃ v, detect_visual_type text "auto" = .ok v := by
  by_cases h1 : chart_signal text
  · exact ⟨.chart, by simp [detect_visual_type, h1]⟩
  · by_cases h2 : (has_flow_keywords (pyLower text) || has_decision text
        || has_yes_no text || has_if_then text) = true
    · exact ⟨.flowchart, by simp [detect_visual_type, h1, h2]⟩
    · exact ⟨.diagram, by
        simp only [detect_visual_type, if_neg h1]
        simp only [Bool.or_assoc] at h2 ⊢
        simp [h1, h2]⟩

/-! ### Shared line/segment splitting -/

/-- Python `text.split(sep)` for a single-character separator (keeps empty
pieces, no merging of adjacent separators). -/
def splitCharAux (sep : Char) (acc : List Char) : List Char → List (List Char)
  | [] => [acc.reverse]
  | c :: cs =>
    if c = sep then acc.reverse :: splitCharAux sep [] cs
    else splitCharAux sep (c :: acc) cs

/-- Python `text.split('\n')`. -/
def pySplitLines (text : String) : List String :=
  (splitCharAux '\n' [] text.data).map fun l => ⟨l⟩

/-- The stripped non-blank line list built by both parsers (source line 113 /
line 422): `[line.strip() for line in text.split('\n') if line.strip()]`. -/
def parseLines (text : String) : List String :=
  ((pySplitLines text).map pyStrip).filter fun l => l ≠ ""

/-- Model of `re.split(r'\s*→\s*|\s*->\s*', line)`: pieces between arrow
tokens, scanning left to right.  The `\s*` around the tokens is not consumed
here; every consumer strips (or whitespace-normalizes) the pieces, which
yields the same result. -/
def splitArrowsAux (acc : List Char) : List Char → List (List Char)
  | [] => [acc.reverse]
  | '→' :: cs => acc.reverse :: splitArrowsAux [] cs
  | '-' :: '>' :: cs => acc.reverse :: splitArrowsAux [] cs
  | c :: cs => splitArrowsAux (c :: acc) cs

/-- Arrow split on a string line. -/
def splitArrows (line : String) : List String :=
  (splitArrowsAux [] line.data).map fun l => ⟨l⟩

/-! ### Diagram parser (`parse_diagram`, source lines 392-460) -/

/-- Collapse each whitespace run into a single space (tail of
`re.sub(r'\s+', ' ', ...)`); the flag records whether the previous character
was whitespace. -/
def collapseWsAux : Bool → List Char → List Char
  | _, [] => []
  | prevWs, c :: cs =>
    if isPyWs c then
      (if prevWs then [] else [' ']) ++ collapseWsAux true cs
    else c :: collapseWsAux false cs

/-- Model of `canon` (source lines 399-400):
`re.sub(r'\s+', ' ', s.strip())`. -/
def canon (s : String) : String :=
  ⟨collapseWsAux false (pyStripL s.data)⟩

/-- Model of `clean_entity` (source lines 402-403): strip one leading
article `the|a|an` plus following whitespace (case-insensitive, with the
alternation backtracking of `re.sub(r'^(the|a|an)\s+', '', ...)`) from the
canonical form. -/
def clean_entity (s : String) : String :=
  let cs := (canon s).data
  let tryArt : List Char → Option (List Char) := fun art =>
    match litCI art cs with
    | some rest =>
      let w := countLeading isPyWs rest
      if w > 0 then some (rest.drop w) else none
    | none => none
  match tryArt ['t', 'h', 'e'] <|> tryArt ['a'] <|> tryArt ['a', 'n'] with
  | some rest => ⟨rest⟩
  | none => ⟨cs⟩

/-- Node dict of `parse_diagram` (`{"id": ..., "label": ...}`). -/
structure DNode where
  id : String
  label : String
deriving DecidableEq, Repr

/-- Edge dict of `parse_diagram`; `src`/`dst` model the `"from"`/`"to"`
keys (`from` is a reserved word in Lean). -/
structure DEdge where
  src : String
  dst : String
deriving DecidableEq, Repr

/-- Mutable collections of one `parse_diagram` call (source lines 394-397). -/
structure DiagSt where
  nodes : List DNode
  edges : List DEdge
  nodeSet : List String
  edgeSet : List String
deriving DecidableEq, Repr

/-- Empty initial state of `parse_diagram`. -/
def initDiagSt : DiagSt :=
  ⟨[], [], [], []⟩

/-- Model of `parse_diagram.add_node` (source lines 405-414): keyed by the
canonical label; an empty key is rejected (`None`); the id is
`node_` + current node count; returns the key. -/
def add_node_diag (st : DiagSt) (label : String) : Option String × DiagSt :=
  let key := canon label
  if key = "" then (none, st)
  else if st.nodeSet.contains key then (some key, st)
  else
    (some key,
     { st with
        nodes := st.nodes ++ [⟨"node_" ++ toString st.nodes.length, key⟩],
        nodeSet := st.nodeSet ++ [key] })

/-- Model of `parse_diagram.add_edge` (source lines 416-420): deduplicated
by the string key `from + " -> " + to`. -/
def add_edge_diag (st : DiagSt) (fromLabel toLabel : String) : DiagSt :=
  let key := fromLabel ++ " -> " ++ toLabel
  if st.edgeSet.contains key then st
  else
    { st with
        edges := st.edges ++ [⟨fromLabel, toLabel⟩],
        edgeSet := st.edgeSet ++ [key] }

/-- Arrow-line detection (source line 426): the original expression
`re.search(r'[→-]>', line) or '→' in line or '->' in line` is equivalent to
containment of one of the two arrow tokens. -/
def containsArrowTok (line : String) : Bool :=
  containsSub ['-', '>'] line.data || containsSub ['→'] line.data

/-- Shared per-pair step of both passes (source lines 429-432 and 452-457):
add both endpoint nodes, then record the edge only when both adds returned a
key. -/
def addPairStep (st : DiagSt) (a b : String) : DiagSt :=
  let r1 := add_node_diag st a
  let r2 := add_node_diag r1.2 b
  match r1.1, r2.1 with
  | some fl, some tl => add_edge_diag r2.2 fl tl
  | _, _ => r2.2

/-- One arrow line of the arrow pass (source lines 427-432): each
consecutive pair of split pieces goes through `addPairStep`. -/
def arrowPairsStep (st : DiagSt) : List String → DiagSt
  | a :: b :: rest => arrowPairsStep (addPairStep st a b) (b :: rest)
  | _ => st

/-- The arrow pass over all stripped non-blank lines (source lines 425-432). -/
def arrowPass (st : DiagSt) (lines : List String) : DiagSt :=
  lines.foldl
    (fun st line =>
      if containsArrowTok line then arrowPairsStep st (splitArrows line) else st)
    st

/-- Separator class of the phrase split (source line 435): `[\n.;]`. -/
def isPhraseSep (c : Char) : Bool :=
  c = '\n' || c = '.' || c = ';'

/-- Lookahead of the comma separator alternative `,\s*(?=[A-Z0-9])`. -/
def commaLookahead (cs : List Char) : Bool :=
  match cs.drop (countLeading isPyWs cs) with
  | d :: _ => ('A' ≤ d && d ≤ 'Z') || d.isDigit
  | [] => false

/-- Model of `re.split(r'[\n\.;]+|,\s*(?=[A-Z0-9])', text)`: split at each
separator character and at commas whose lookahead holds.  Python merges a
run of `[\n.;]` into one separator and consumes the `\s*` after a comma;
splitting at single characters instead yields extra empty / padded pieces
that the subsequent strip-and-filter (source line 436) removes, so the final
phrase list is identical. -/
def phraseSplitAux (acc : List Char) : List Char → List (List Char)
  | [] => [acc.reverse]
  | c :: cs =>
    if isPhraseSep c then acc.reverse :: phraseSplitAux [] cs
    else if c = ',' then
      if commaLookahead cs then acc.reverse :: phraseSplitAux [] cs
      else phraseSplitAux (c :: acc) cs
    else phraseSplitAux (c :: acc) cs

/-- Consume `\s+` followed by a literal word (case-insensitively).  All verb
words start with a non-whitespace character, so consuming the maximal
whitespace run is exact. -/
def wsLit (w : List Char) (cs : List Char) : Option (List Char) :=
  let n := countLeading isPyWs cs
  if n = 0 then none else litCI w (cs.drop n)

/-- The trailing `\s+(.+)$` of every verb pattern: greedy `\s+` backtracks
just enough to leave a non-empty capture. -/
def finalGroup (cs : List Char) : Option (List Char) :=
  let w := countLeading isPyWs cs
  if w = 0 then none
  else if cs.length ≤ w then
    if w ≥ 2 then some (cs.drop (w - 1)) else none
  else some (cs.drop w)

/-- The middle parts (between the two captures) of the seven verb patterns
of `parse_diagram` (source lines 438-446), in source order.  Optional groups
try the with-group branch first; the alternatives are mutually exclusive on
their next literal, so `<|>` realizes the backtracking exactly. -/
def verbMids : List (List Char → Option (List Char)) :=
  [fun cs => wsLit "connects".data cs >>= wsLit "to".data,
   fun cs => wsLit "sends".data cs >>= fun r =>
     (wsLit "request".data r >>= wsLit "to".data) <|> wsLit "to".data r,
   fun cs => wsLit "routes".data cs >>= wsLit "to".data,
   fun cs => wsLit "links".data cs >>= wsLit "to".data,
   fun cs => wsLit "queries".data cs,
   fun cs => wsLit "returns".data cs >>= fun r =>
     ((wsLit "data".data r <|> wsLit "response".data r) >>= wsLit "to".data)
       <|> wsLit "to".data r,
   fun cs => wsLit "sends".data cs >>= fun r =>
     wsLit "data".data r >>= wsLit "to".data]

/-- Match `^(.+?)\s+MID\s+(.+)$` (case-insensitive): the lazy first capture
grows one character at a time until the rest of the pattern matches. -/
def matchVerbAux (mid : List Char → Option (List Char)) (accRev : List Char) :
    List Char → Option (String × String)
  | [] => none
  | c :: rest =>
    match (mid rest).bind finalGroup with
    | some g2 => some (⟨(c :: accRev).reverse⟩, ⟨g2⟩)
    | none => matchVerbAux mid (c :: accRev) rest

/-- First verb pattern (in source order) matching a phrase. -/
def firstVerbMatch (cs : List Char) : Option (String × String) :=
  verbMids.findSome? fun mid => matchVerbAux mid [] cs

/-- One phrase of the verb pass (source lines 448-458): the first matching
verb pattern's captures are article-stripped and go through `addPairStep`. -/
def phraseStep (st : DiagSt) (phrase : String) : DiagSt :=
  match firstVerbMatch phrase.data with
  | some (g1, g2) => addPairStep st (clean_entity g1) (clean_entity g2)
  | none => st

/-- Model of `parse_diagram` (source lines 392-460): the arrow pass over the
stripped lines, then the verb-phrase pass over the phrase split of the raw
text. -/
def parse_diagram (text : String) : DiagSt :=
  let st := arrowPass initDiagSt (parseLines text)
  let phrases :=
    (((phraseSplitAux [] text.data).map fun p => pyStrip ⟨p⟩).filter fun p => p ≠ "")
  phrases.foldl phraseStep st

/-! ### Claims C3 and C10 about the diagram parser -/

/-- Coverage of the dedup set by the node list: every key in `node_set`
labels some node. -/
def nodeSetCovered (st : DiagSt) : Prop :=
  ∀ k ∈ st.nodeSet, ∃ n ∈ st.nodes, n.label = k

/-- Endpoint closure of the edge list: each edge's from/to label labels some
node in the node list. -/
def edgesClosed (st : DiagSt) : Prop :=
  ∀ e ∈ st.edges,
    (∃ n ∈ st.nodes, n.label = e.src) ∧ (∃ n ∈ st.nodes, n.label = e.dst)

/-- The invariant carried through `parse_diagram`. -/
def DiagInv (st : DiagSt) : Prop :=
  nodeSetCovered st ∧ edgesClosed st

theorem add_node_diag_nodes_mono (st : DiagSt) (l : String) :
    ∀ n ∈ st.nodes, n ∈ (add_node_diag st l).2.nodes := by
  intro n hn
  by_cases h1 : canon l = ""
  · simpa [add_node_diag, h1] using hn
  · by_cases h2 : canon l ∈ st.nodeSet
    · simpa [add_node_diag, h1, h2] using hn
    · simp [add_node_diag, h1, h2, hn]

theorem add_node_diag_edges_eq (st : DiagSt) (l : String) :
    (add_node_diag st l).2.edges = st.edges := by
  by_cases h1 : canon l = ""
  · simp [add_node_diag, h1]
  · by_cases h2 : canon l ∈ st.nodeSet
    · simp [add_node_diag, h1, h2]
    · simp [add_node_diag, h1, h2]

theorem add_node_diag_some_label (st : DiagSt) (l k : String)
    (hcov : nodeSetCovered st) (h : (add_node_diag st l).1 = some k) :
    ∃ n ∈ (add_node_diag st l).2.nodes, n.label = k := by
  by_cases h1 : canon l = ""
  · simp [add_node_diag, h1] at h
  · by_cases h2 : canon l ∈ st.nodeSet
    · have hk : canon l = k := by simpa [add_node_diag, h1, h2] using h
      subst hk
      obtain ⟨n, hn, hl⟩ := hcov _ h2
      exact ⟨n, add_node_diag_nodes_mono st l n hn, hl⟩
    · have hk : canon l = k := by simpa [add_node_diag, h1, h2] using h
      subst hk
      refine ⟨⟨"node_" ++ toString st.nodes.length, canon l⟩, ?_, rfl⟩
      simp [add_node_diag, h1, h2]

theorem add_node_diag_inv (st : DiagSt) (l : String) (h : DiagInv st) :
    DiagInv (add_node_diag st l).2 := by
  obtain ⟨hcov, hcl⟩ := h
  constructor
  · intro k hk
    by_cases h1 : canon l = ""
    · obtain ⟨n, hn, hl⟩ := hcov k (by simpa [add_node_diag, h1] using hk)
      exact ⟨n, add_node_diag_nodes_mono st l n hn, hl⟩
    · by_cases h2 : canon l ∈ st.nodeSet
      · obtain ⟨n, hn, hl⟩ := hcov k (by simpa [add_node_diag, h1, h2] using hk)
        exact ⟨n, add_node_diag_nodes_mono st l n hn, hl⟩
      · have hk' : k ∈ st.nodeSet ∨ k = canon l := by
          simpa [add_node_diag, h1, h2] using hk
        rcases hk' with hk' | rfl
        · obtain ⟨n, hn, hl⟩ := hcov k hk'
          exact ⟨n, add_node_diag_nodes_mono st l n hn, hl⟩
        · refine ⟨⟨"node_" ++ toString st.nodes.length, canon l⟩, ?_, rfl⟩
          simp [add_node_diag, h1, h2]
  · intro e he
    rw [add_node_diag_edges_eq] at he
    obtain ⟨⟨n1, hn1, hl1⟩, ⟨n2, hn2, hl2⟩⟩ := hcl e he
    exact ⟨⟨n1, add_node_diag_nodes_mono st l n1 hn1, hl1⟩,
           ⟨n2, add_node_diag_nodes_mono st l n2 hn2, hl2⟩⟩

theorem add_edge_diag_inv (st : DiagSt) (fl tl : String) (h : DiagInv st)
    (hf : ∃ n ∈ st.nodes, n.label = fl) (ht : ∃ n ∈ st.nodes, n.label = tl) :
    DiagInv (add_edge_diag st fl tl) := by
  obtain ⟨hcov, hcl⟩ := h
  by_cases hk : (fl ++ " -> " ++ tl) ∈ st.edgeSet
  · have hst : add_edge_diag st fl tl = st := by simp [add_edge_diag, hk]
    rw [hst]
    exact ⟨hcov, hcl⟩
  · constructor
    · intro k hkm
      have := hcov k (by simpa [add_edge_diag, hk] using hkm)
      simpa [add_edge_diag, hk] using this
    · intro e he
      have he' : e ∈ st.edges ∨ e = ⟨fl, tl⟩ := by
        simpa [add_edge_diag, hk] using he
      have hnod : (add_edge_diag st fl tl).nodes = st.nodes := by
        simp [add_edge_diag, hk]
      rw [hnod]
      rcases he' with he' | rfl
      · exact hcl e he'
      · exact ⟨hf, ht⟩

theorem addPairStep_inv (st : DiagSt) (a b : String) (h : DiagInv st) :
    DiagInv (addPairStep st a b) := by
  have h1 := add_node_diag_inv st a h
  have h2 := add_node_diag_inv (add_node_diag st a).2 b h1
  unfold addPairStep
  dsimp only
  cases hf : (add_node_diag st a).1 with
  | none =>
    cases ht : (add_node_diag (add_node_diag st a).2 b).1 with
    | none => exact h2
    | some tl => exact h2
  | some fl =>
    cases ht : (add_node_diag (add_node_diag st a).2 b).1 with
    | none => exact h2
    | some tl =>
      apply add_edge_diag_inv _ _ _ h2
      · obtain ⟨n, hn, hl⟩ := add_node_diag_some_label st a fl h.1 hf
        exact ⟨n, add_node_diag_nodes_mono _ b n hn, hl⟩
      · exact add_node_diag_some_label _ b tl h1.1 ht

theorem arrowPairsStep_inv (parts : List String) (st : DiagSt) (h : DiagInv st) :
    DiagInv (arrowPairsStep st parts) := by
  induction parts generalizing st with
  | nil => simpa [arrowPairsStep] using h
  | cons a rest ih =>
    cases rest with
    | nil => simpa [arrowPairsStep] using h
    | cons b rest' =>
      have hs := addPairStep_inv st a b h
      simpa [arrowPairsStep] using ih (addPairStep st a b) hs

theorem arrowPass_inv (lines : List String) (st : DiagSt) (h : DiagInv st) :
    DiagInv (arrowPass st lines) := by
  induction lines generalizing st with
  | nil => simpa [arrowPass] using h
  | cons line rest ih =>
    simp only [arrowPass, List.foldl_cons]
    by_cases hc : containsArrowTok line
    · have := arrowPairsStep_inv (splitArrows line) st h
      have hgoal := ih _ this
      simpa [arrowPass, hc] using hgoal
    · have hgoal := ih _ h
      simpa [arrowPass, hc] using hgoal

theorem phraseStep_inv (st : DiagSt) (phrase : String) (h : DiagInv st) :
    DiagInv (phraseStep st phrase) := by
  cases hm : firstVerbMatch phrase.data with
  | none => simpa [phraseStep, hm] using h
  | some g =>
    obtain ⟨g1, g2⟩ := g
    simpa [phraseStep, hm] using
      addPairStep_inv st (clean_entity g1) (clean_entity g2) h

/-- C10: for every input text, every edge returned by `parse_diagram` is
endpoint-closed: its from-label and its to-label each equal the label of
some node in the returned node list. -/
theorem parse_diagram_edges_closed (text : String) (e : DEdge)
    (he : e ∈ (parse_diagram text).edges) :
    (∃ n ∈ (parse_diagram text).nodes, n.label = e.src)
      ∧ (∃ n ∈ (parse_diagram text).nodes, n.label = e.dst) := by
  have hinit : DiagInv initDiagSt := by
    constructor
    · intro k hk; simp [initDiagSt] at hk
    · intro e he; simp [initDiagSt] at he
  have harrow := arrowPass_inv (parseLines text) initDiagSt hinit
  have hfold :
      ∀ (ps : List String) (st : DiagSt), DiagInv st → DiagInv (ps.foldl phraseStep st) := by
    intro ps
    induction ps with
    | nil => intro st h; simpa using h
    | cons p rest ih =>
      intro st h
      exact ih _ (phraseStep_inv st p h)
  have := hfold
    (((phraseSplitAux [] text.data).map fun p => pyStrip ⟨p⟩).filter fun p => p ≠ "")
    (arrowPass initDiagSt (parseLines text)) harrow
  exact this.2 e he

/-- Witness for C10 at the concrete input `a -> b`. -/
theorem parse_diagram_edges_closed_witness :
    (∃ n ∈ (parse_diagram "a -> b").nodes, n.label = DEdge.src ⟨"a", "b"⟩)
      ∧ (∃ n ∈ (parse_diagram "a -> b").nodes, n.label = DEdge.dst ⟨"a", "b"⟩) :=
  parse_diagram_edges_closed "a -> b" ⟨"a", "b"⟩ (by decide)

/-- C3 counterexample: the entity mentions `a` (from `a connects to b`) and
`A` (from `A connects to b`) are equal after whitespace collapse, article
strip and case-insensitive comparison, yet `parse_diagram` produces two
distinct nodes for them — three nodes in total — because the dedup key is
case-sensitive. -/
theorem parse_diagram_dedup_counterexample :
    (parse_diagram "a connects to b\nA connects to b").nodes.map DNode.label
      = ["a", "b", "A"] := by
  decide

/-- C3 amended: two entity mentions map to the same node id exactly when
their canonical forms agree as strings — whitespace-collapsed and
case-SENSITIVE (leading-article stripping is applied only to verb-phrase
captures before `add_node` is reached): a second `add_node` with an equal
canonical label is a no-op returning the same key, so only one node exists
for the pair. -/
theorem add_node_diag_dedup (st : DiagSt) (l l' : String) (h : canon l = canon l') :
    add_node_diag (add_node_diag st l).2 l' = add_node_diag st l := by
  by_cases h1 : canon l = ""
  · simp [add_node_diag, h1, ← h]
  · by_cases h2 : canon l ∈ st.nodeSet
    · simp [add_node_diag, h1, h2, ← h]
    · have hfirst : add_node_diag st l =
        (some (canon l),
         { st with
            nodes := st.nodes ++ [⟨"node_" ++ toString st.nodes.length, canon l⟩],
            nodeSet := st.nodeSet ++ [canon l] }) := by
        simp [add_node_diag, h1, h2]
      rw [hfirst]
      simp [add_node_diag, ← h, h1]

/-- Witness for C3's amended statement: two spellings of the same label that
differ only in surrounding/inner whitespace collapse to one node. -/
theorem add_node_diag_dedup_witness :
    canon " The  Server " = canon "The Server"
      ∧ add_node_diag (add_node_diag initDiagSt " The  Server ").2 "The Server"
          = add_node_diag initDiagSt " The  Server " :=
  ⟨by decide, add_node_diag_dedup initDiagSt " The  Server " "The Server" (by decide)⟩

/-! ### Flowchart parser regular expressions (`parse_flowchart`) -/

/-- Python `s.endswith('?')`. -/
def endsWithQ (s : String) : Bool :=
  match s.data.reverse with
  | '?' :: _ => true
  | _ => false

/-- The anchored tail `\s+else\s+(.+)` of the optional else group. -/
def matchElsePart (cs : List Char) : Option (List Char) :=
  let w := countLeading isPyWs cs
  if w = 0 then none
  else (litCI ['e', 'l', 's', 'e'] (cs.drop w)).bind finalGroup

/-- Lazy scan for the then-action capture `(.+?)(?:\s+else\s+(.+))?$`: the
capture (accumulated reversed in `accRev`, always non-empty) grows one
character at a time; at each length the else group is tried on the remainder
before accepting at the end of the line. -/
def thenActionAux (accRev : List Char) : List Char → Option (String × Option String)
  | [] => some (⟨accRev.reverse⟩, none)
  | c :: cs =>
    match matchElsePart (c :: cs) with
    | some e => some (⟨accRev.reverse⟩, some ⟨e⟩)
    | none => thenActionAux (c :: accRev) cs

/-- The `\s+` run before the then-action, greedy with backtracking: lengths
are tried in descending order. -/
def matchThenPartAux (cs : List Char) : Nat → Option (String × Option String)
  | 0 => none
  | w + 1 =>
    (match cs.drop (w + 1) with
     | [] => none
     | c :: rest => thenActionAux [c] rest)
    <|> matchThenPartAux cs w

/-- The part after the literal `then`: `\s+(.+?)(?:\s+else\s+(.+))?$`. -/
def matchThenPart (cs : List Char) : Option (String × Option String) :=
  matchThenPartAux cs (countLeading isPyWs cs)

/-- Lazy scan for the condition capture: at each split the remainder must
match `\s+then` followed by the then-part. -/
def condScanAux (accRev : List Char) : List Char → Option (String × String × Option String)
  | [] => none
  | c :: cs =>
    match (wsLit ['t', 'h', 'e', 'n'] cs).bind matchThenPart with
    | some (act, els) => some (⟨(c :: accRev).reverse⟩, act, els)
    | none => condScanAux (c :: accRev) cs

/-- The `\s+` run after the literal `if`, descending. -/
def matchIfThenWs (rest : List Char) : Nat → Option (String × String × Option String)
  | 0 => none
  | w + 1 => condScanAux [] (rest.drop (w + 1)) <|> matchIfThenWs rest w

/-- Model of
`re.match(r'^if\s+(.+?)\s+then\s+(.+?)(?:\s+else\s+(.+))?$', line, re.IGNORECASE)`
(source lines 129-130 and 234-235), following the engine's backtracking
order: condition length ascending (outermost lazy group), each `\s+` run
descending, action length ascending, the else group tried before `$`. -/
def matchIfThen (line : String) : Option (String × String × Option String) :=
  match litCI ['i', 'f'] line.data with
  | some rest => matchIfThenWs rest (countLeading isPyWs rest)
  | none => none

/-- The lookahead `(?=\s+no\s*:|$)` of the yes-branch pattern (first
alternative only; the `$` case is handled by the caller's scan). -/
def yesLookahead (cs : List Char) : Bool :=
  let w := countLeading isPyWs cs
  if w = 0 then false
  else
    match litCI ['n', 'o'] (cs.drop w) with
    | some rest =>
      match rest.drop (countLeading isPyWs rest) with
      | ':' :: _ => true
      | _ => false
    | none => false

/-- Lazy capture of the yes-branch: stop at the first position where the
lookahead holds or at the end of the line. -/
def yesCaptureAux (accRev : List Char) : List Char → Option String
  | [] => some ⟨accRev.reverse⟩
  | c :: cs =>
    if yesLookahead (c :: cs) then some ⟨accRev.reverse⟩
    else yesCaptureAux (c :: accRev) cs

/-- Model of
`re.search(r'^yes\s*:\s*(.+?)(?=\s+no\s*:|$)', line, re.IGNORECASE)`
(source lines 164-165 and 271-272); the pattern is anchored, so search
equals match-at-start. -/
def yes_match (line : String) : Option String :=
  match litCI ['y', 'e', 's'] line.data with
  | some r1 =>
    match r1.drop (countLeading isPyWs r1) with
    | ':' :: r2 =>
      if r2.length = 0 then none
      else
        match r2.drop (min (countLeading isPyWs r2) (r2.length - 1)) with
        | c :: cs => yesCaptureAux [c] cs
        | [] => none
    | _ => none
  | none => none

/-- Match of `no\s*:\s*(.+?)$` starting exactly at the head of the input. -/
def noMatchHere (cs : List Char) : Option String :=
  match litCI ['n', 'o'] cs with
  | some r1 =>
    match r1.drop (countLeading isPyWs r1) with
    | ':' :: r2 =>
      if r2.length = 0 then none
      else some ⟨r2.drop (min (countLeading isPyWs r2) (r2.length - 1))⟩
    | _ => none
  | none => none

/-- Leftmost-position scan of the unanchored search. -/
def no_match_aux : List Char → Option String
  | [] => none
  | c :: cs =>
    match noMatchHere (c :: cs) with
    | some g => some g
    | none => no_match_aux cs

/-- Model of `re.search(r'no\s*:\s*(.+?)$', line, re.IGNORECASE)` (source
lines 166 and 273); note there is no word boundary before `no`, so the
search can fire inside a word. -/
def no_match (line : String) : Option String :=
  no_match_aux line.data

/-- Model of `re.match(r'^step\s*\d+\s*:\s*(.+)$', line, re.IGNORECASE)`
(source lines 201-202). -/
def step_match (line : String) : Option String :=
  match litCI ['s', 't', 'e', 'p'] line.data with
  | some r1 =>
    let r2 := r1.drop (countLeading isPyWs r1)
    let d := countLeading Char.isDigit r2
    if d = 0 then none
    else
      let r3 := r2.drop d
      match r3.drop (countLeading isPyWs r3) with
      | ':' :: r4 =>
        if r4.length = 0 then none
        else some ⟨r4.drop (min (countLeading isPyWs r4) (r4.length - 1))⟩
      | _ => none
  | none => none

/-- Model of `re.match(r'^(yes|no)\s*:', next_part, re.IGNORECASE)` (source
line 324). -/
def yes_no_prefix (s : String) : Bool :=
  match litCI ['y', 'e', 's'] s.data <|> litCI ['n', 'o'] s.data with
  | some rest =>
    match rest.drop (countLeading isPyWs rest) with
    | ':' :: _ => true
    | _ => false
  | none => false

/-- Alternatives of the terminal-keyword pattern
`\b(start|begin|end|finish)\b`. -/
def terminalAlts : List (List Char) :=
  [['s', 't', 'a', 'r', 't'], ['b', 'e', 'g', 'i', 'n'], ['e', 'n', 'd'],
   ['f', 'i', 'n', 'i', 's', 'h']]

/-- Alternatives of the decision-keyword pattern
`\b(decision|check|validate|verify)\b`. -/
def decisionAlts : List (List Char) :=
  [['d', 'e', 'c', 'i', 's', 'i', 'o', 'n'], ['c', 'h', 'e', 'c', 'k'],
   ['v', 'a', 'l', 'i', 'd', 'a', 't', 'e'], ['v', 'e', 'r', 'i', 'f', 'y']]

/-- The recurring `is_terminal` test (e.g. source lines 146-147, 204-205). -/
def is_terminal_label (s : String) : Bool :=
  searchWordAux terminalAlts false s.data

/-- The recurring `is_decision` test (source lines 208-209 and 303-304):
a `?` anywhere, or a decision/check/validate/verify keyword. -/
def is_decision_label (s : String) : Bool :=
  s.data.contains '?' || searchWordAux decisionAlts false s.data

/-! ### Flowchart parser (`parse_flowchart`, source lines 95-390) -/

/-- Flowchart node (dataclass `Node`, source lines 23-31).  The geometry
fields `x`, `y`, `width`, `height` keep their defaults throughout parsing
and are not part of the returned dicts, so they are omitted here. -/
structure Node where
  id : String
  label : String
  type : String
deriving DecidableEq, Repr

/-- Flowchart edge (dataclass `Edge`, source lines 34-38). -/
structure Edge where
  from_node : String
  to_node : String
  label : Option String
deriving DecidableEq, Repr

/-- Parser state of one `parse_flowchart` call: the collections of source
lines 97-100 and the cross-line variables of lines 113-119.  The variable
`pending_yes_no` (line 119) is initialized but never used and is omitted. -/
structure FlowSt where
  nodes : List Node
  edges : List Edge
  node_map : List (String × String)
  node_id_counter : Nat
  sequential_candidates : List String
  last_decision : Option String
  decision_to_branches : List (String × List String)
  last_non_decision : Option String
  decision_prev_map : List (String × String)
deriving DecidableEq, Repr

/-- Initial parser state. -/
def initFlowSt : FlowSt :=
  ⟨[], [], [], 0, [], none, [], none, []⟩

/-- Python dict lookup on an insertion-ordered association list. -/
def dictGet (m : List (String × String)) (k : String) : Option String :=
  (m.find? fun p => p.1 == k).map fun p => p.2

/-- Python dict assignment `m[k] = v`. -/
def dictSet (m : List (String × String)) (k v : String) : List (String × String) :=
  if (m.find? fun p => p.1 == k).isSome then
    m.map fun p => if p.1 == k then (k, v) else p
  else m ++ [(k, v)]

/-- Model of `parse_flowchart.add_node` (source lines 102-111). -/
def add_node_flow (st : FlowSt) (label node_type : String) : String × FlowSt :=
  match dictGet st.node_map label with
  | some nid => (nid, st)
  | none =>
    let nid := "node_" ++ toString st.node_id_counter
    (nid,
     { st with
        nodes := st.nodes ++ [⟨nid, label, node_type⟩],
        node_map := st.node_map ++ [(label, nid)],
        node_id_counter := st.node_id_counter + 1 })

/-- `if key not in decision_to_branches: decision_to_branches[key] = set()`. -/
def ensureBranchKey (m : List (String × List String)) (k : String) :
    List (String × List String) :=
  if (m.find? fun p => p.1 == k).isSome then m else m ++ [(k, [])]

/-- `decision_to_branches[key].add(v)` (Python set add, order-preserving
model; this map is written but never read by the parser's output). -/
def addBranchVal (m : List (String × List String)) (k v : String) :
    List (String × List String) :=
  m.map fun p => if p.1 == k then (p.1, if p.2.contains v then p.2 else p.2 ++ [v]) else p

/-- Truthiness of `Optional[str]` (`if decision_source:`). -/
def optTruthy : Option String → Bool
  | some s => s ≠ ""
  | none => false

/-- Cross-line bookkeeping after adding a sequential-line or segment node
(source lines 215-222 and 312-319): records the last decision (initializing
its branch set and its predecessor entry) or the last non-decision. -/
def decisionBookkeeping (st : FlowSt) (label : String) (is_dec : Bool) : FlowSt :=
  if is_dec then
    let st1 :=
      { st with
          last_decision := some label,
          decision_to_branches := ensureBranchKey st.decision_to_branches label }
    match st1.last_non_decision with
    | some lnd =>
      if lnd ≠ "" then
        { st1 with decision_prev_map := dictSet st1.decision_prev_map label lnd }
      else st1
    | none => st1
  else { st with last_non_decision := some label }

/-- Shared handling of an if/then(/else) match (source lines 131-160 at line
level and 236-268 at segment level; only the segment variant records
`decision_prev_map`, hence the `setPrev` flag). -/
def processIfThen (setPrev : Bool) (st : FlowSt) (g1 g2 : String) (g3 : Option String) :
    FlowSt :=
  let condition := pyStrip g1
  let then_action := pyStrip g2
  let else_action := match g3 with | some e => pyStrip e | none => ""
  let decision_label := if endsWithQ condition then condition else condition ++ "?"
  let r := add_node_flow st decision_label "decision"
  let decision_id := r.1
  let st1 :=
    { r.2 with
        last_decision := some decision_label,
        decision_to_branches := ensureBranchKey r.2.decision_to_branches decision_label }
  let st2 :=
    if setPrev then
      match st1.last_non_decision with
      | some lnd =>
        if lnd ≠ "" then
          { st1 with decision_prev_map := dictSet st1.decision_prev_map decision_label lnd }
        else st1
      | none => st1
    else st1
  let st3 :=
    if then_action ≠ "" then
      let r2 := add_node_flow st2 then_action
        (if is_terminal_label then_action then "terminal" else "process")
      { r2.2 with
          edges := r2.2.edges ++ [⟨decision_id, r2.1, some "Yes"⟩],
          decision_to_branches := addBranchVal r2.2.decision_to_branches decision_label "Yes" }
    else st2
  if else_action ≠ "" then
    let r3 := add_node_flow st3 else_action
      (if is_terminal_label else_action then "terminal" else "process")
    { r3.2 with
        edges := r3.2.edges ++ [⟨decision_id, r3.1, some "No"⟩],
        decision_to_branches := addBranchVal r3.2.decision_to_branches decision_label "No" }
  else st3

/-- Standalone Yes/No branch line (source lines 163-197): the branch nodes
hang off the most recently seen decision, looked up through `node_map`. -/
def processBranchLine (st : FlowSt) (line : String) : FlowSt :=
  let st1 :=
    match yes_match line with
    | some g =>
      let yes_path := pyStrip g
      (match st.last_decision with
       | some ds =>
         if ds ≠ "" && yes_path ≠ "" then
           let r := add_node_flow st yes_path
             (if is_terminal_label yes_path then "terminal" else "process")
           let stA :=
             match dictGet r.2.node_map ds with
             | some did =>
               if did ≠ "" then { r.2 with edges := r.2.edges ++ [(⟨did, r.1, some "Yes"⟩ : Edge)] }
               else r.2
             | none => r.2
           { stA with
               decision_to_branches :=
                 addBranchVal (ensureBranchKey stA.decision_to_branches ds) ds "Yes" }
         else st
       | none => st)
    | none => st
  match no_match line with
  | some g =>
    let no_path := pyStrip g
    (match st1.last_decision with
     | some ds =>
       if ds ≠ "" && no_path ≠ "" then
         let r := add_node_flow st1 no_path
           (if is_terminal_label no_path then "terminal" else "process")
         let stA :=
           match dictGet r.2.node_map ds with
           | some did =>
             if did ≠ "" then { r.2 with edges := r.2.edges ++ [(⟨did, r.1, some "No"⟩ : Edge)] }
             else r.2
           | none => r.2
         { stA with
             decision_to_branches :=
               addBranchVal (ensureBranchKey stA.decision_to_branches ds) ds "No" }
       else st1
     | none => st1)
  | none => st1

/-- Plain sequential line (source lines 199-225). -/
def processSeqLine (st : FlowSt) (line : String) : FlowSt :=
  let label := match step_match line with | some g => pyStrip g | none => line
  let is_dec := is_decision_label label
  let is_term := is_terminal_label label
  let node_type := if is_dec then "decision" else if is_term then "terminal" else "process"
  let st1 := (add_node_flow st label node_type).2
  let st2 := decisionBookkeeping st1 label is_dec
  { st2 with sequential_candidates := st2.sequential_candidates ++ [label] }

/-- Yes/No handling inside an arrow segment (source lines 275-300).  Unlike
the standalone branch line, the edge source recorded here is the decision
LABEL, not its node id (source lines 284 and 297). -/
def processSegmentBranch (st : FlowSt) (yesM noM : Option String) : FlowSt :=
  let st1 :=
    match yesM with
    | some g =>
      let yes_path := pyStrip g
      (match st.last_decision with
       | some ds =>
         if ds ≠ "" && yes_path ≠ "" then
           let r := add_node_flow st yes_path
             (if is_terminal_label yes_path then "terminal" else "process")
           { r.2 with
               edges := r.2.edges ++ [⟨ds, r.1, some "Yes"⟩],
               decision_to_branches :=
                 addBranchVal (ensureBranchKey r.2.decision_to_branches ds) ds "Yes" }
         else st
       | none => st)
    | none => st
  match noM with
  | some g =>
    let no_path := pyStrip g
    (match st1.last_decision with
     | some ds =>
       if ds ≠ "" && no_path ≠ "" then
         let r := add_node_flow st1 no_path
           (if is_terminal_label no_path then "terminal" else "process")
         { r.2 with
             edges := r.2.edges ++ [⟨ds, r.1, some "No"⟩],
             decision_to_branches :=
               addBranchVal (ensureBranchKey r.2.decision_to_branches ds) ds "No" }
       else st1
     | none => st1)
  | none => st1

/-- Plain (non-if/then, non-branch) arrow segment (source lines 301-326),
including the connect-to-next-segment step: the NEXT segment, unless it is a
Yes/No segment, is pre-registered with role `process` (source line 325). -/
def processPlainPart (st : FlowSt) (part : String) (next_raw : Option String) : FlowSt :=
  let is_dec := is_decision_label part
  let is_term := is_terminal_label part
  let node_type := if is_dec then "decision" else if is_term then "terminal" else "process"
  let r := add_node_flow st part node_type
  let st1 := decisionBookkeeping r.2 part is_dec
  match next_raw with
  | some np =>
    let next_part := pyStrip np
    if yes_no_prefix next_part then st1
    else
      let r2 := add_node_flow st1 next_part "process"
      { r2.2 with edges := r2.2.edges ++ [⟨r.1, r2.1, none⟩] }
  | none => st1

/-- Process the segments of an arrow line in order (source lines 228-326). -/
def processParts (st : FlowSt) : List String → FlowSt
  | [] => st
  | p :: rest =>
    let part := pyStrip p
    if part = "" then processParts st rest
    else
      let st1 :=
        match matchIfThen part with
        | some (g1, g2, g3) => processIfThen true st g1 g2 g3
        | none =>
          let yesM := yes_match part
          let noM := no_match part
          if yesM.isSome || noM.isSome then processSegmentBranch st yesM noM
          else processPlainPart st part rest.head?
      processParts st1 rest

/-- Process one stripped line (source lines 121-326): if/then lines first,
then standalone branch lines, then plain sequential lines, else the arrow
segment walk. -/
def processLine (st : FlowSt) (line : String) : FlowSt :=
  let arrow_parts := splitArrows line
  let has_arrow := arrow_parts.length > 1
  let has_branch := searchYesNoColonAux false line.data
  match matchIfThen line with
  | some (g1, g2, g3) => processIfThen false st g1 g2 g3
  | none =>
    if has_branch && !has_arrow then processBranchLine st line
    else if !has_arrow && !has_branch then processSeqLine st line
    else processParts st arrow_parts

/-- Connection-repair step for one decision node (source lines 334-366):
when the decision has both a Yes- and a No-branch edge, link the Yes target
to the terminal node whose label contains `end`, and link the No target to
the backbone entry following the decision. -/
def repairStep (nodes : List Node) (node_map : List (String × String))
    (seq : List String) (edges : List Edge) (decision : Node) : List Edge :=
  let decision_edges := edges.filter fun e =>
    e.from_node == decision.id && (e.label == some "Yes" || e.label == some "No")
  if decision_edges.isEmpty then edges
  else
    match decision_edges.find? fun e => e.label == some "Yes",
          decision_edges.find? fun e => e.label == some "No" with
    | some yes_edge, some no_edge =>
      let yes_to := yes_edge.to_node
      let no_to := no_edge.to_node
      let end_node := nodes.find? fun n =>
        n.type == "terminal" && containsSub ['e', 'n', 'd'] (pyLower n.label).data
      let edges1 :=
        match end_node with
        | some en =>
          if edges.any fun e => e.from_node == yes_to && e.to_node == en.id then edges
          else edges ++ [⟨yes_to, en.id, none⟩]
        | none => edges
      match seq.findIdx? fun l => l == decision.label with
      | some di =>
        if di < seq.length - 1 then
          match seq.get? (di + 1) with
          | some next_step =>
            match dictGet node_map next_step with
            | some next_id =>
              if edges1.any fun e => e.from_node == no_to && e.to_node == next_id then edges1
              else edges1 ++ [⟨no_to, next_id, none⟩]
            | none => edges1
          | none => edges1
        else edges1
      | none => edges1
    | _, _ => edges

/-- The connection-repair pass over all decision nodes (source lines
332-366). -/
def repairPass (nodes : List Node) (node_map : List (String × String))
    (seq : List String) (edges : List Edge) : List Edge :=
  (nodes.filter fun n => n.type == "decision").foldl (repairStep nodes node_map seq) edges

/-- One adjacent backbone pair of the sequential pass (source lines
369-385). -/
def seqStep (nodes : List Node) (node_map : List (String × String))
    (edges : List Edge) (from_label to_label : String) : List Edge :=
  match dictGet node_map from_label, dictGet node_map to_label with
  | some from_id, some to_id =>
    let from_node := nodes.find? fun n => n.label == from_label
    if (edges.any fun e => e.from_node == from_id && e.to_node == to_id)
        || (match from_node with | some n => n.type == "decision" | none => false) then
      edges
    else edges ++ [⟨from_id, to_id, none⟩]
  | _, _ => edges

/-- The sequential-connection pass over adjacent backbone entries. -/
def seqPass (nodes : List Node) (node_map : List (String × String))
    (edges : List Edge) : List String → List Edge
  | a :: b :: rest => seqPass nodes node_map (seqStep nodes node_map edges a b) (b :: rest)
  | _ => edges

/-- Model of `parse_flowchart` (source lines 95-390): the line pass, the
connection-repair pass, and the sequential-connection pass; returns the node
and edge lists (the returned Python dicts carry exactly these fields). -/
def parse_flowchart (text : String) : List Node × List Edge :=
  let st := (parseLines text).foldl processLine initFlowSt
  let edges1 := repairPass st.nodes st.node_map st.sequential_candidates st.edges
  let edges2 := seqPass st.nodes st.node_map edges1 st.sequential_candidates
  (st.nodes, edges2)

/-! ### Claims C2, C4, C5 about the flowchart parser -/

theorem add_node_flow_mem (st : FlowSt) (label ty : String)
    (h : dictGet st.node_map label = none) :
    (⟨"node_" ++ toString st.node_id_counter, label, ty⟩ : Node)
      ∈ (add_node_flow st label ty).2.nodes := by
  simp [add_node_flow, h]

theorem add_node_flow_mono (st : FlowSt) (label ty : String) :
    ∀ n ∈ st.nodes, n ∈ (add_node_flow st label ty).2.nodes := by
  intro n hn
  cases hl : dictGet st.node_map label with
  | some nid => simpa [add_node_flow, hl] using hn
  | none => simp [add_node_flow, hl, hn]

theorem decisionBookkeeping_nodes (st : FlowSt) (l : String) (d : Bool) :
    (decisionBookkeeping st l d).nodes = st.nodes := by
  unfold decisionBookkeeping
  cases d with
  | false => simp
  | true =>
    dsimp only
    cases h : st.last_non_decision with
    | none => simp
    | some lnd =>
      by_cases he : lnd ≠ "" <;> simp [he]

/-- C2 amended: in an arrow-chain line, a plain segment (not if/then/else,
not a Yes:/No: branch) that contains `?` or a check/validate/verify keyword
yields a node with role `decision` PROVIDED its label is not yet registered
in the node map when that segment is processed.  (Without that proviso the
claim is false: a segment pre-registered by the previous segment's
connect-to-next step — which always uses role `process`, source line 325 —
keeps the `process` role; see the counterexample.) -/
theorem processPlainPart_decision (st : FlowSt) (part : String) (next_raw : Option String)
    (hfresh : dictGet st.node_map part = none)
    (hdec : is_decision_label part = true) :
    ∃ n ∈ (processPlainPart st part next_raw).nodes,
      n.label = part ∧ n.type = "decision" := by
  refine ⟨⟨"node_" ++ toString st.node_id_counter, part, "decision"⟩, ?_, rfl, rfl⟩
  have hadd := add_node_flow_mem st part "decision" hfresh
  have hbk :
      (⟨"node_" ++ toString st.node_id_counter, part, "decision"⟩ : Node)
        ∈ (decisionBookkeeping (add_node_flow st part "decision").2 part true).nodes := by
    rw [decisionBookkeeping_nodes]
    exact hadd
  cases next_raw with
  | none => simpa [processPlainPart, hdec] using hbk
  | some np =>
    by_cases hp : yes_no_prefix (pyStrip np)
    · simpa [processPlainPart, hdec, hp] using hbk
    · have hmono := add_node_flow_mono
        (decisionBookkeeping (add_node_flow st part "decision").2 part true)
        (pyStrip np) "process" _ hbk
      simpa [processPlainPart, hdec, hp] using hmono

/-- Witness for C2's amended statement: a fresh decision segment at the
head of a chain gets role `decision`. -/
theorem processPlainPart_decision_witness :
    dictGet initFlowSt.node_map "Check valid?" = none
    ∧ is_decision_label "Check valid?" = true
    ∧ ∃ n ∈ (processPlainPart initFlowSt "Check valid?" none).nodes,
        n.label = "Check valid?" ∧ n.type = "decision" :=
  ⟨rfl, by decide,
   processPlainPart_decision initFlowSt "Check valid?" none rfl (by decide)⟩

/-- C2 counterexample: in the arrow-chain line `A -> B?` the second segment
`B?` is plain (no if/then, no Yes:/No: branch) and contains `?`, yet the
returned node list tags it `process` and contains no decision node at all —
the claim's "regardless of the segment's position in the chain" fails. -/
theorem arrow_decision_segment_counterexample :
    is_decision_label "B?" = true
    ∧ matchIfThen "B?" = none
    ∧ yes_match "B?" = none
    ∧ no_match "B?" = none
    ∧ (parse_flowchart "A -> B?").1
        = [⟨"node_0", "A", "process"⟩, ⟨"node_1", "B?", "process"⟩]
    ∧ ((parse_flowchart "A -> B?").1.filter fun n => n.type == "decision") = [] := by
  refine ⟨by decide, by decide, by decide, by decide, by decide, by decide⟩

/-- C4: for the input `Check valid?\nYes: Show dashboard\nNo: Show error`,
`parse_flowchart` returns exactly 1 decision node and exactly 2
non-decision (process/terminal) nodes, and the edge list contains a
Yes-labeled edge and a No-labeled edge both originating at the decision
node. -/
theorem parse_flowchart_decision_branching :
    (((parse_flowchart "Check valid?\nYes: Show dashboard\nNo: Show error").1.filter
        fun n => n.type == "decision").length = 1)
    ∧ (((parse_flowchart "Check valid?\nYes: Show dashboard\nNo: Show error").1.filter
        fun n => n.type == "process" || n.type == "terminal").length = 2)
    ∧ (∃ d ∈ (parse_flowchart "Check valid?\nYes: Show dashboard\nNo: Show error").1,
        d.type = "decision"
        ∧ (∃ e1 ∈ (parse_flowchart "Check valid?\nYes: Show dashboard\nNo: Show error").2,
            e1.label = some "Yes" ∧ e1.from_node = d.id)
        ∧ (∃ e2 ∈ (parse_flowchart "Check valid?\nYes: Show dashboard\nNo: Show error").2,
            e2.label = some "No" ∧ e2.from_node = d.id)) := by
  refine ⟨by decide, by decide, ?_⟩
  refine ⟨⟨"node_0", "Check valid?", "decision"⟩, by decide, rfl, ?_, ?_⟩
  · exact ⟨⟨"node_0", "node_1", some "Yes"⟩, by decide, rfl, rfl⟩
  · exact ⟨⟨"node_0", "node_2", some "No"⟩, by decide, rfl, rfl⟩

/-- C5: for the input `Start\nProcess\nEnd` (no arrows, no branch lines),
`parse_flowchart` returns exactly 3 nodes with role tags terminal, process,
terminal, and exactly 2 unlabeled sequential edges forming the single chain
Start to Process to End. -/
theorem parse_flowchart_sequencing :
    parse_flowchart "Start\nProcess\nEnd"
      = ([⟨"node_0", "Start", "terminal"⟩, ⟨"node_1", "Process", "process"⟩,
          ⟨"node_2", "End", "terminal"⟩],
         [⟨"node_0", "node_1", none⟩, ⟨"node_1", "node_2", none⟩]) := by
  decide

/-! ### Chart parser (`parse_chart`, source lines 462-475) -/

/-- Chart entry (dataclass `ChartData`, source lines 41-44).  Python float
values are modelled as exact rationals. -/
structure ChartData where
  label : String
  value : ℚ
deriving DecidableEq, Repr

/-- Numeric value of a decimal capture (Python `float(...)`), exact in ℚ. -/
def ratOfDigits (intPart frac : List Char) : ℚ :=
  let iv : Nat := intPart.foldl (fun a c => a * 10 + (c.toNat - '0'.toNat)) 0
  let fv : Nat := frac.foldl (fun a c => a * 10 + (c.toNat - '0'.toNat)) 0
  (iv : ℚ) + (fv : ℚ) / (10 : ℚ) ^ frac.length

/-- Model of `re.match(r'([^:=]+)\s*[:=]\s*(\d+(?:\.\d+)?)', line)` (source
line 468): greedy label capture up to the first `:`/`=` (the class includes
whitespace, so the `\s*` before the separator is always empty), then the
number; the pattern is unanchored at the end, so trailing text is allowed.
Returns the entry with the label stripped (source line 471). -/
def chart_line_match (line : String) : Option ChartData :=
  let cs := line.data
  let l := cs.takeWhile fun c => !(c = ':' || c = '=')
  if l.length = 0 then none
  else
    match cs.drop l.length with
    | _ :: rest =>
      let r1 := rest.drop (countLeading isPyWs rest)
      let d1 := countLeading Char.isDigit r1
      if d1 = 0 then none
      else
        let r2 := r1.drop d1
        let frac : List Char :=
          match r2 with
          | '.' :: r3 =>
            let d2 := countLeading Char.isDigit r3
            if d2 = 0 then [] else r3.take d2
          | _ => []
        some ⟨pyStrip ⟨l⟩, ratOfDigits (r1.take d1) frac⟩
    | [] => none

/-- Model of `parse_chart` (source lines 462-475): each stripped non-blank
line is matched; non-matching lines are silently skipped. -/
def parse_chart (text : String) : List ChartData :=
  (parseLines text).filterMap chart_line_match

/-! ### Numeric backend -/

/-- Abstract numeric backend for the Python `float` operations that have no
exact rational counterpart: `repr` is the f-string rendering of a float
value, `fmt` the `:,.0f` format, `pi`/`cos`/`sin` the `math` module
functions.  Every claim theorem below is proved for every backend; Python's
IEEE-754/libm behaviour is one particular instance. -/
structure NumBackend where
  repr : ℚ → String
  fmt : ℚ → String
  pi : ℚ
  cos : ℚ → ℚ
  sin : ℚ → ℚ

/-- Arbitrary concrete backend, used only to state closed witnesses (the
theorems themselves quantify over every backend). -/
def anyBackend : NumBackend :=
  ⟨fun _ => "", fun _ => "", 0, fun _ => 0, fun _ => 0⟩

/-- Python float division: raises `ZeroDivisionError` on a zero divisor
(modelled as `none`), otherwise exact division. -/
def pyDiv (a b : ℚ) : Option ℚ :=
  if b = 0 then none else some (a / b)

/-- Python `max` over a non-empty sequence (first element, then a left
fold keeping the larger value). -/
def pyMax (x : ℚ) (xs : List ℚ) : ℚ :=
  xs.foldl (fun a b => if b > a then b else a) x

/-! ### Chart renderer (`generate_chart_svg`, source lines 597-638) -/

/-- The per-bar loop of `generate_chart_svg` (source lines 623-635), with
the running index `i`.  The division `item["value"] / max_value` (source
line 624) goes through `pyDiv`: the result is `none` exactly when Python
raises `ZeroDivisionError`. -/
def chartBarsAux (F : NumBackend) (max_value bar_width bar_spacing chart_height : ℚ)
    (height padding : Int) : Nat → List ChartData → Option String
  | _, [] => some ""
  | i, item :: rest => do
    let q ← pyDiv item.value max_value
    let bar_height := q * chart_height
    let x : ℚ := (padding : ℚ) + (i : ℚ) * (bar_width + bar_spacing) + bar_spacing / 2
    let y : ℚ := (height : ℚ) - (padding : ℚ) - bar_height
    let piece :=
      "\n            <rect x=\"" ++ F.repr x ++ "\" y=\"" ++ F.repr y
        ++ "\" width=\"" ++ F.repr bar_width ++ "\" height=\"" ++ F.repr bar_height
        ++ "\" \n                  fill=\"#667eea\" stroke=\"#5568d3\" stroke-width=\"2\" rx=\"6\" class=\"bar\"/>"
        ++ "\n            <text x=\"" ++ F.repr (x + bar_width / 2) ++ "\" y=\""
        ++ toString (height - padding + 30)
        ++ "\" \n                  text-anchor=\"middle\" font-size=\"14\" font-weight=\"600\" fill=\"#2c3e50\">"
        ++ item.label ++ "</text>"
        ++ "\n            <text x=\"" ++ F.repr (x + bar_width / 2) ++ "\" y=\""
        ++ F.repr (y - 10)
        ++ "\" \n                  text-anchor=\"middle\" font-size=\"14\" font-weight=\"bold\" fill=\"#2c3e50\">"
        ++ F.fmt item.value ++ "</text>\n            "
    let restS ← chartBarsAux F max_value bar_width bar_spacing chart_height height padding
      (i + 1) rest
    some (piece ++ restS)

/-- Model of `generate_chart_svg` (source lines 597-638).  Python ints stay
exact (`Int`/`toString`); expressions that are Python floats are rendered
through the backend.  An empty data list returns the empty string; a list
whose maximum value is 0 hits the unguarded division and yields `none`
(`ZeroDivisionError`). -/
def generate_chart_svg (F : NumBackend) (data : List ChartData) : Option String :=
  if data.isEmpty then some ""
  else
    let width : Int := 1000
    let height : Int := 700
    let padding : Int := 100
    let chart_width : Int := width - 2 * padding
    let chart_height : Int := height - 2 * padding
    let max_value : ℚ :=
      match data with
      | [] => 0
      | d :: ds => pyMax d.value (ds.map fun x => x.value)
    let bar_width : ℚ := (chart_width : ℚ) / (data.length : ℚ) * (7 / 10)
    let bar_spacing : ℚ := (chart_width : ℚ) / (data.length : ℚ) * (3 / 10)
    let header :=
      "<svg width=\"" ++ toString width ++ "\" height=\"" ++ toString height
        ++ "\" viewBox=\"0 0 " ++ toString width ++ " " ++ toString height
        ++ "\" xmlns=\"http://www.w3.org/2000/svg\">"
    let axes :=
      "\n        <line x1=\"" ++ toString padding ++ "\" y1=\"" ++ toString (height - padding)
        ++ "\" x2=\"" ++ toString (width - padding) ++ "\" y2=\"" ++ toString (height - padding)
        ++ "\" \n              stroke=\"#2c3e50\" stroke-width=\"3\"/>"
        ++ "\n        <line x1=\"" ++ toString padding ++ "\" y1=\"" ++ toString padding
        ++ "\" x2=\"" ++ toString padding ++ "\" y2=\"" ++ toString (height - padding)
        ++ "\" \n              stroke=\"#2c3e50\" stroke-width=\"3\"/>\n        "
    match chartBarsAux F max_value bar_width bar_spacing (chart_height : ℚ)
        height padding 0 data with
    | some bars => some (header ++ axes ++ bars ++ "</svg>")
    | none => none

/-! ### Claim C1 about the chart renderer -/

theorem pyMax_zero (xs : List ℚ) (h : ∀ x ∈ xs, x = 0) : pyMax 0 xs = 0 := by
  induction xs with
  | nil => rfl
  | cons a rest ih =>
    have ha : a = 0 := h a (by simp)
    have hr : ∀ x ∈ rest, x = 0 := fun x hx => h x (by simp [hx])
    simp [pyMax, ha] at ih ⊢
    exact ih hr

/-- C1 (code bug): for every non-empty chart data list in which every value
is exactly 0, `generate_chart_svg` DOES raise on the `max(value) = 0`
division (`ZeroDivisionError`, modelled as `none`): the degenerate case the
spec requires to be guarded ("treat as all-zero-height bars") is not
guarded in the code (source line 624 divides by `max_value` unconditionally). -/
theorem generate_chart_svg_zero_fault (F : NumBackend) (data : List ChartData)
    (hne : data ≠ []) (hz : ∀ d ∈ data, d.value = 0) :
    generate_chart_svg F data = none := by
  match data with
  | [] => exact absurd rfl hne
  | d :: ds =>
    have hd : d.value = 0 := hz d (by simp)
    have hmax : pyMax d.value (ds.map fun x => x.value) = 0 := by
      rw [hd]
      apply pyMax_zero
      intro x hx
      obtain ⟨c, hc, rfl⟩ := List.mem_map.mp hx
      exact hz c (by simp [hc])
    have hdiv : pyDiv d.value (pyMax d.value (ds.map fun x => x.value)) = none := by
      rw [hmax]
      simp [pyDiv]
    have hbars : ∀ (bw bs ch : ℚ) (hh pp : Int) (i : Nat),
        chartBarsAux F (pyMax d.value (ds.map fun x => x.value)) bw bs ch hh pp i (d :: ds)
          = none := by
      intro bw bs ch hh pp i
      simp [chartBarsAux, hdiv]
    simp [generate_chart_svg, hbars]

/-- Witness for C1 at the one-entry list `A: 0`. -/
theorem generate_chart_svg_zero_fault_witness :
    ([⟨"A", (0 : ℚ)⟩] : List ChartData) ≠ []
      ∧ generate_chart_svg anyBackend [⟨"A", (0 : ℚ)⟩] = none :=
  ⟨by decide, generate_chart_svg_zero_fault anyBackend [⟨"A", 0⟩] (by decide)
    (by intro d hd; simp at hd; rw [hd])⟩

/-! ### Secret redaction (`redact_secrets`, source lines 50-65) -/

/-- Character class `[A-Za-z0-9._%+-]` of the email local part. -/
def isLocalChar (c : Char) : Bool :=
  c.isAlpha || c.isDigit || c = '.' || c = '_' || c = '%' || c = '+' || c = '-'

/-- Character class `[A-Za-z0-9.-]` of the email domain. -/
def isDomChar (c : Char) : Bool :=
  c.isAlpha || c.isDigit || c = '.' || c = '-'

/-- Character class `[A-Z|a-z]` of the email suffix — the literal `|` inside
the class makes `|` a member. -/
def isTldChar (c : Char) : Bool :=
  c.isAlpha || c = '|'

/-- The trailing `[A-Z|a-z]{2,}\b` of the email pattern: the suffix run is
tried greedily (longest first, at least 2) until the boundary after it
holds.  Called with the length of the maximal suffix run. -/
def emailTldAux (cs : List Char) : Nat → Option Nat
  | 0 => none
  | t + 1 =>
    if t + 1 < 2 then none
    else
      let nextW :=
        match cs.drop (t + 1) with
        | [] => false
        | c :: _ => isWordChar c
      match cs.get? t with
      | some lc =>
        if (isWordChar lc) ≠ nextW then some (t + 1) else emailTldAux cs t
      | none => emailTldAux cs t

/-- The `[A-Za-z0-9.-]+\.` middle of the email pattern: the greedy domain
run backtracks (longest first) until a literal dot follows; the consumed
count includes the dot and the suffix. -/
def emailDomAux (r1 : List Char) : Nat → Option Nat
  | 0 => none
  | n + 1 =>
    (match r1.drop (n + 1) with
     | '.' :: r2 =>
       match emailTldAux r2 (countLeading isTldChar r2) with
       | some t => some ((n + 1) + 1 + t)
       | none => none
     | _ => none)
    <|> emailDomAux r1 n

/-- Match of the email pattern
`\b[A-Za-z0-9._%+-]+@[A-Za-z0-9.-]+\.[A-Z|a-z]{2,}\b` at the head of the
input (`prevW`: whether the previous character is a word character, for the
leading boundary). -/
def emailMatch (prevW : Bool) (cs : List Char) : Option Nat :=
  match cs with
  | c :: _ =>
    if isLocalChar c && (prevW ≠ isWordChar c) then
      let l := countLeading isLocalChar cs
      match cs.drop l with
      | '@' :: r1 =>
        match emailDomAux r1 (countLeading isDomChar r1) with
        | some m => some (l + 1 + m)
        | none => none
      | _ => none
    else none
  | [] => none

/-- Character class `[\s-]` of the card separators. -/
def isCardSep (c : Char) : Bool :=
  isPyWs c || c = '-'

/-- Four digits (`\d{4}`). -/
def cardD4 (cs : List Char) : Option (List Char) :=
  if cs.length ≥ 4 && (cs.take 4).all Char.isDigit then some (cs.drop 4) else none

/-- Optional separator `[\s-]?`, greedy (with-separator tried first). -/
def cardOptSep (k : List Char → Option (List Char)) (cs : List Char) :
    Option (List Char) :=
  match cs with
  | c :: rest => if isCardSep c then (k rest) <|> k cs else k cs
  | [] => k cs

/-- The final `\d{4}\b` of the card pattern. -/
def cardTail (cs : List Char) : Option (List Char) :=
  match cardD4 cs with
  | some rest =>
    (match rest with
     | [] => some []
     | c :: _ => if !isWordChar c then some rest else none)
  | none => none

/-- `\d{4}[\s-]?` followed by a continuation. -/
def cardGroup (k : List Char → Option (List Char)) (cs : List Char) :
    Option (List Char) :=
  match cardD4 cs with
  | some rest => cardOptSep k rest
  | none => none

/-- Match of the card pattern
`\b\d{4}[\s-]?\d{4}[\s-]?\d{4}[\s-]?\d{4}\b` at the head of the input. -/
def cardMatch (prevW : Bool) (cs : List Char) : Option Nat :=
  match cs with
  | c :: _ =>
    if c.isDigit && !prevW then
      match cardGroup (cardGroup (cardGroup cardTail)) cs with
      | some rest => some (cs.length - rest.length)
      | none => none
    else none
  | [] => none

/-- The `\s*[:=]\s*\S+` tail of the password pattern: each greedy run is
followed by a character outside its class, so maximal consumption is exact. -/
def pwAfterKey (cs : List Char) : Option (List Char) :=
  let r1 := cs.drop (countLeading isPyWs cs)
  match r1 with
  | c :: r2 =>
    if c = ':' || c = '=' then
      let r3 := r2.drop (countLeading isPyWs r2)
      let n := countLeading (fun c => !isPyWs c) r3
      if n = 0 then none else some (r3.drop n)
    else none
  | [] => none

/-- `api[-_]?key` (the optional separator tried greedily first). -/
def apiKey (cs : List Char) : Option (List Char) :=
  (litCI ['a', 'p', 'i'] cs).bind fun r =>
    match r with
    | c :: rest =>
      if c = '-' || c = '_' then (litCI ['k', 'e', 'y'] rest) <|> litCI ['k', 'e', 'y'] r
      else litCI ['k', 'e', 'y'] r
    | [] => none

/-- Match of the password pattern
`\b(?:password|pwd|secret|key|token|api[-_]?key)\s*[:=]\s*\S+` at the head
of the input; every keyword alternative is tried (in source order) with the
full tail, realizing the alternation backtracking. -/
def pwMatch (prevW : Bool) (cs : List Char) : Option Nat :=
  if prevW then none
  else
    match
      ((litCI ['p', 'a', 's', 's', 'w', 'o', 'r', 'd'] cs).bind pwAfterKey)
        <|> ((litCI ['p', 'w', 'd'] cs).bind pwAfterKey)
        <|> ((litCI ['s', 'e', 'c', 'r', 'e', 't'] cs).bind pwAfterKey)
        <|> ((litCI ['k', 'e', 'y'] cs).bind pwAfterKey)
        <|> ((litCI ['t', 'o', 'k', 'e', 'n'] cs).bind pwAfterKey)
        <|> ((apiKey cs).bind pwAfterKey) with
    | some rest => some (cs.length - rest.length)
    | none => none

/-- The trailing `[A-Za-z0-9]{20,}\b` of the secret-key pattern, greedy with
backtracking. -/
def skAlnumAux (cs : List Char) : Nat → Option (List Char)
  | 0 => none
  | n + 1 =>
    if n + 1 < 20 then none
    else
      (match cs.drop (n + 1) with
       | [] => some []
       | c :: rest => if !isWordChar c then some (c :: rest) else none)
      <|> skAlnumAux cs n

/-- Match of the secret-key pattern `\b(?:sk|pk)-[A-Za-z0-9]{20,}\b` at the
head of the input. -/
def skMatch (prevW : Bool) (cs : List Char) : Option Nat :=
  if prevW then none
  else
    match (litCI ['s', 'k'] cs <|> litCI ['p', 'k'] cs) with
    | some r =>
      match r with
      | '-' :: r2 =>
        match skAlnumAux r2 (countLeading (fun c => c.isAlpha || c.isDigit) r2) with
        | some rest => some (cs.length - rest.length)
        | none => none
      | _ => none
    | none => none

/-- Model of `re.sub(pattern, repl, text, flags=re.IGNORECASE)` for one
secret pattern: scan left to right replacing non-overlapping matches; the
boundary context for later matches is the last character of the ORIGINAL
matched span, as in Python.  A (never occurring) zero-width match is treated
as no match to keep the scan well-founded. -/
def subPattern (m : Bool → List Char → Option Nat) (repl : List Char) :
    Bool → List Char → List Char
  | _, [] => []
  | prevW, c :: cs =>
    match m prevW (c :: cs) with
    | some (n + 1) =>
      let lw :=
        match ((c :: cs).take (n + 1)).reverse with
        | x :: _ => isWordChar x
        | [] => prevW
      repl ++ subPattern m repl lw (cs.drop n)
    | some 0 => c :: subPattern m repl (isWordChar c) cs
    | none => c :: subPattern m repl (isWordChar c) cs
termination_by _ l => l.length
decreasing_by
  all_goals simp only [List.length_drop, List.length_cons]; omega

/-- The four secret patterns with their replacements (source lines 51-57),
in source order. -/
def secretPatterns : List ((Bool → List Char → Option Nat) × List Char) :=
  [(emailMatch, "[EMAIL]".data), (cardMatch, "[CARD]".data),
   (pwMatch, "password: [REDACTED]".data), (skMatch, "[SECRET]".data)]

/-- Model of `redact_secrets` (source lines 59-65): fold the substitutions
over the text in pattern order. -/
def redact_secrets (patterns : List ((Bool → List Char → Option Nat) × List Char))
    (text : String) : String :=
  patterns.foldl (fun t p => ⟨subPattern p.1 p.2 false t.data⟩) text

/-! ### Flowchart layout (`_calculate_flowchart_layout`, source lines 765-848) -/

/-- Layout entry (`{"col": ..., "row": ..., "node": ...}`). -/
structure LayoutPos where
  col : Int
  row : Int
  node : Node
deriving Repr

/-- Queue item of the breadth-first traversal. -/
structure QItem where
  id : String
  col : Int
  row : Int
deriving Repr

/-- Child entry of the adjacency list (`{"to": ..., "label": ...}`). -/
structure AdjChild where
  toN : String
  label : Option String
deriving Repr

/-- Append a child under a key of the adjacency dict (source lines 777-781),
creating the key on first use (Python dict insertion order). -/
def adjAdd (m : List (String × List AdjChild)) (k : String) (c : AdjChild) :
    List (String × List AdjChild) :=
  if (m.find? fun p => p.1 == k).isSome then
    m.map fun p => if p.1 == k then (p.1, p.2 ++ [c]) else p
  else m ++ [(k, [c])]

/-- Build the adjacency list of all edges. -/
def buildAdj (edges : List Edge) : List (String × List AdjChild) :=
  edges.foldl (fun m e => adjAdd m e.from_node ⟨e.to_node, e.label⟩) []

/-- Count of node ids not yet visited — the termination measure of the
breadth-first traversal. -/
def unvisitedCount (ids visited : List String) : Nat :=
  ids.countP fun i => !visited.contains i

theorem countP_le_of_imp (l : List String) (p q : String → Bool)
    (h : ∀ x ∈ l, p x = true → q x = true) : l.countP p ≤ l.countP q := by
  induction l with
  | nil => simp
  | cons a rest ih =>
    simp only [List.countP_cons]
    have hr := ih fun x hx => h x (List.mem_cons_of_mem a hx)
    by_cases hp : p a = true
    · have hq := h a (List.mem_cons_self a rest) hp
      rw [if_pos hp, if_pos hq]
      omega
    · rw [if_neg hp]
      have hle : (if q a = true then 1 else 0) ≤ 1 := by split <;> omega
      omega

theorem contains_append_single (visited : List String) (x y : String) :
    (visited ++ [x]).contains y = (visited.contains y || y == x) := by
  simp only [List.contains_eq_any_beq, List.any_append, List.any_cons, List.any_nil,
    Bool.or_false]

theorem unvisitedCount_lt (ids visited : List String) (x : String)
    (hx : x ∈ ids) (hnv : visited.contains x = false) :
    unvisitedCount ids (visited ++ [x]) < unvisitedCount ids visited := by
  unfold unvisitedCount
  have himp : ∀ y : String,
      (!(visited ++ [x]).contains y) = true → (!visited.contains y) = true := by
    intro y hy
    rw [contains_append_single] at hy
    simp only [Bool.not_eq_true', Bool.or_eq_false_iff] at hy
    rw [hy.1]
    rfl
  induction ids with
  | nil => simp at hx
  | cons a rest ih =>
    simp only [List.countP_cons]
    by_cases hax : a = x
    · subst hax
      have h1 : (!(visited ++ [a]).contains a) = false := by
        rw [contains_append_single]
        simp
      have h2 : (!visited.contains a) = true := by rw [hnv]; rfl
      rw [h1, h2]
      have hle := countP_le_of_imp rest _ _ fun y _ hy => himp y hy
      have e1 : (if (false : Bool) = true then 1 else 0) = 0 := rfl
      have e2 : (if (true : Bool) = true then 1 else 0) = 1 := rfl
      rw [e1, e2]
      omega
    · have hxr : x ∈ rest := by
        rcases List.mem_cons.mp hx with h | h
        · exact absurd h.symm hax
        · exact h
      have hlt := ih hxr
      have hbeq : (a == x) = false := by
        simp only [beq_eq_false_iff_ne, ne_eq]
        exact hax
      have hca : (!(visited ++ [x]).contains a) = (!visited.contains a) := by
        rw [contains_append_single, hbeq, Bool.or_false]
      rw [hca]
      omega

/-- The breadth-first traversal of `_calculate_flowchart_layout` (source
lines 784-829).  A queue entry whose id is not in `node_map` would raise
`KeyError` in Python (modelled as `none`); this cannot occur for the edges
the parser produces from a reachable start.  Decision nodes place their
Yes/No children at diverging columns; other nodes stack children in the
same column. -/
def bfsAux (node_map : List (String × Node)) (adj : List (String × List AdjChild))
    (visited : List String) (layout : List (String × LayoutPos)) (max_row : Int) :
    List QItem → Option (List (String × LayoutPos) × Int)
  | [] => some (layout, max_row)
  | q :: queue =>
    if hv : (visited.contains q.id) = true then
      bfsAux node_map adj visited layout max_row queue
    else
      match hn : node_map.find? fun p => p.1 == q.id with
      | none => none
      | some pr =>
        let node := pr.2
        let layout1 := layout ++ [(q.id, ⟨q.col, q.row, node⟩)]
        let max_row1 := if q.row > max_row then q.row else max_row
        let children :=
          match adj.find? fun p => p.1 == q.id with
          | some p => p.2
          | none => []
        let isYes : AdjChild → Bool := fun c =>
          match c.label with
          | some s => s ≠ "" && pyLower s == "yes"
          | none => false
        let isNo : AdjChild → Bool := fun c =>
          match c.label with
          | some s => s ≠ "" && pyLower s == "no"
          | none => false
        let newItems : List QItem :=
          if node.type == "decision" && !children.isEmpty then
            match children.find? isYes, children.find? isNo with
            | some yc, some nc =>
              [⟨yc.toN, q.col + 1, q.row + 1⟩, ⟨nc.toN, q.col - 1, q.row + 1⟩]
            | _, _ =>
              children.enum.map fun ic =>
                ⟨ic.2.toN, q.col + (if ic.1 = 0 then 1 else -1), q.row + 1⟩
          else
            children.map fun c => ⟨c.toN, q.col, q.row + 1⟩
        bfsAux node_map adj (visited ++ [q.id]) layout1 max_row1 (queue ++ newItems)
termination_by queue =>
  (unvisitedCount (node_map.map fun p => p.1) visited, queue.length)
decreasing_by
  · apply Prod.Lex.right
    simp
  · apply Prod.Lex.left
    apply unvisitedCount_lt
    · have hmem := List.mem_of_find?_eq_some hn
      have hbeq := List.find?_some hn
      have heq : pr.1 = q.id := by simpa using hbeq
      exact heq ▸ List.mem_map_of_mem (fun p => p.1) hmem
    · simpa using hv

/-- Model of `_calculate_flowchart_layout` (source lines 765-848); `none`
models the `nodes[0]` fault on an empty node list, which the caller's guard
makes unreachable. -/
def calculate_flowchart_layout (nodes : List Node) (edges : List Edge) :
    Option (List (String × LayoutPos)) :=
  match nodes with
  | [] => none
  | n0 :: _ =>
    let node_map := nodes.map fun n => (n.id, n)
    let target_nodes := edges.map fun e => e.to_node
    let start_node := (nodes.find? fun n => !target_nodes.contains n.id).getD n0
    let adj := buildAdj edges
    match bfsAux node_map adj [] [] 0 [⟨start_node.id, 0, 0⟩] with
    | none => none
    | some (layout, max_row) =>
      let orph := nodes.foldl
        (fun (acc : List (String × LayoutPos) × Int) n =>
          if (acc.1.find? fun p => p.1 == n.id).isSome then acc
          else (acc.1 ++ [(n.id, ⟨0, acc.2 + 1, n⟩)], acc.2 + 1))
        (layout, max_row)
      let layout1 := orph.1
      let min_col :=
        match layout1.map fun p => p.2.col with
        | [] => 0
        | c :: cs => cs.foldl (fun a b => if b < a then b else a) c
      if min_col < 0 then
        some (layout1.map fun p => (p.1, ⟨p.2.col - min_col, p.2.row, p.2.node⟩))
      else some layout1

/-! ### Flowchart renderer (`generate_flowchart_svg`, source lines 477-521,
850-943) -/

/-- Lookup in the layout dict. -/
def lookupLayout (layout : List (String × LayoutPos)) (k : String) : Option LayoutPos :=
  (layout.find? fun p => p.1 == k).map fun p => p.2

/-- Model of `_draw_flowchart_node` (source lines 850-886); the `width` and
`height` parameters of the Python function are unused and omitted.  Integer
expressions print via `toString`, Python-float expressions (the halves of
the 180x70 node box) via the backend. -/
def draw_flowchart_node (F : NumBackend) (node : Node) (pos : LayoutPos) : String :=
  let x : Int := 100 + pos.col * 220
  let y : Int := 100 + pos.row * 140
  if node.type == "decision" then
    let points :=
      F.repr ((x : ℚ) + 90) ++ "," ++ toString y ++ " " ++ toString (x + 180) ++ ","
        ++ F.repr ((y : ℚ) + 35) ++ " " ++ F.repr ((x : ℚ) + 90) ++ ","
        ++ toString (y + 70) ++ " " ++ toString x ++ "," ++ F.repr ((y : ℚ) + 35)
    "\n            <g class=\"node\">\n                <polygon points=\"" ++ points
      ++ "\" fill=\"#e74c3c\" stroke=\"#c0392b\" stroke-width=\"2.5\"/>\n                <text x=\""
      ++ F.repr ((x : ℚ) + 90) ++ "\" y=\"" ++ F.repr ((y : ℚ) + 35)
      ++ "\" text-anchor=\"middle\" dominant-baseline=\"middle\" \n                      fill=\"white\" font-size=\"14\" font-weight=\"600\">"
      ++ node.label ++ "</text>\n            </g>\n            "
  else if node.type == "terminal" then
    "\n            <g class=\"node\">\n                <rect x=\"" ++ toString x
      ++ "\" y=\"" ++ toString y
      ++ "\" width=\"180\" height=\"70\" rx=\"35\" \n                      fill=\"#27ae60\" stroke=\"#229954\" stroke-width=\"2.5\"/>\n                <text x=\""
      ++ F.repr ((x : ℚ) + 90) ++ "\" y=\"" ++ F.repr ((y : ℚ) + 35)
      ++ "\" text-anchor=\"middle\" dominant-baseline=\"middle\" \n                      fill=\"white\" font-size=\"15\" font-weight=\"600\">"
      ++ node.label ++ "</text>\n            </g>\n            "
  else
    "\n            <g class=\"node\">\n                <rect x=\"" ++ toString x
      ++ "\" y=\"" ++ toString y
      ++ "\" width=\"180\" height=\"70\" rx=\"10\" \n                      fill=\"#667eea\" stroke=\"#5568d3\" stroke-width=\"2.5\"/>\n                <text x=\""
      ++ F.repr ((x : ℚ) + 90) ++ "\" y=\"" ++ F.repr ((y : ℚ) + 35)
      ++ "\" text-anchor=\"middle\" dominant-baseline=\"middle\" \n                      fill=\"white\" font-size=\"14\" font-weight=\"600\">"
      ++ node.label ++ "</text>\n            </g>\n            "

/-- Model of `_draw_flowchart_edge` (source lines 888-943; the unused
`width`/`height` parameters are omitted).  Connection points are integers;
the elbow midpoint and the label badge coordinates are Python floats. -/
def draw_flowchart_edge (F : NumBackend) (from_pos to_pos : LayoutPos) (e : Edge) :
    String :=
  let fx0 : Int := from_pos.col * 220 + 100
  let fy0 : Int := from_pos.row * 140 + 100
  let tx0 : Int := to_pos.col * 220 + 100
  let ty0 : Int := to_pos.row * 140 + 100
  let fp : Int × Int :=
    if from_pos.node.type == "decision" then
      if e.label == some "Yes" then (fx0 + 90, fy0 + 35)
      else if e.label == some "No" then (fx0, fy0 + 35)
      else (fx0 + 90, fy0 + 35)
    else (fx0 + 90, fy0 + 70)
  let tp : Int × Int := (tx0 + 90, ty0)
  let mid_y : ℚ := ((fp.2 : ℚ) + (tp.2 : ℚ)) / 2
  let path :=
    "M " ++ toString fp.1 ++ " " ++ toString fp.2 ++ " L " ++ toString fp.1 ++ " "
      ++ F.repr mid_y ++ " L " ++ toString tp.1 ++ " " ++ F.repr mid_y ++ " L "
      ++ toString tp.1 ++ " " ++ toString tp.2
  let base :=
    "\n        <path d=\"" ++ path
      ++ "\" stroke=\"#667eea\" stroke-width=\"2.5\" fill=\"none\" marker-end=\"url(#arrowhead)\" class=\"connection\"/>\n        "
  match e.label with
  | some lbl =>
    if lbl ≠ "" then
      let label_x : ℚ := ((fp.1 : ℚ) + (tp.1 : ℚ)) / 2 + 15
      base
        ++ "\n            <rect x=\"" ++ F.repr (label_x - 20) ++ "\" y=\""
        ++ F.repr (mid_y - 12)
        ++ "\" width=\"40\" height=\"24\" \n                  fill=\"white\" stroke=\"#667eea\" stroke-width=\"1.5\" rx=\"4\"/>\n            <text x=\""
        ++ F.repr label_x ++ "\" y=\"" ++ F.repr (mid_y + 4)
        ++ "\" text-anchor=\"middle\" font-size=\"12\" \n                  font-weight=\"bold\" fill=\"#667eea\">"
        ++ lbl ++ "</text>\n            "
    else base
  | none => base

/-- Maximum of a non-empty Int list (Python `max`); the default for the
empty case is never reached because the layout of a non-empty node list is
non-empty. -/
def maxFold : List Int → Int
  | [] => 0
  | c :: cs => cs.foldl (fun a b => if b > a then b else a) c

/-- Model of `generate_flowchart_svg` (source lines 477-521); `none`
propagates the layout fault, unreachable under the non-empty guard. -/
def generate_flowchart_svg (F : NumBackend) (data : List Node × List Edge) :
    Option String :=
  let nodes := data.1
  let edges := data.2
  if nodes.isEmpty then some ""
  else
    match calculate_flowchart_layout nodes edges with
    | none => none
    | some layout =>
      let max_col := maxFold (layout.map fun p => p.2.col)
      let max_row := maxFold (layout.map fun p => p.2.row)
      let width : Int := max 1200 ((max_col + 1) * 220 + 200)
      let height : Int := max 800 ((max_row + 1) * 140 + 200)
      let header :=
        "<svg width=\"" ++ toString width ++ "\" height=\"" ++ toString height
          ++ "\" viewBox=\"0 0 " ++ toString width ++ " " ++ toString height
          ++ "\" xmlns=\"http://www.w3.org/2000/svg\">"
      let defsBlock :=
        "\n        <defs>\n            <marker id=\"arrowhead\" markerWidth=\"10\" markerHeight=\"10\" refX=\"9\" refY=\"3\" orient=\"auto\">\n                <polygon points=\"0 0, 10 3, 0 6\" fill=\"#667eea\"/>\n            </marker>\n        </defs>\n        "
      let edgesSvg := edges.foldl
        (fun acc e =>
          match lookupLayout layout e.from_node, lookupLayout layout e.to_node with
          | some fp, some tp => acc ++ draw_flowchart_edge F fp tp e
          | _, _ => acc)
        ""
      let nodesSvg := nodes.foldl
        (fun acc n =>
          match lookupLayout layout n.id with
          | some p => acc ++ draw_flowchart_node F n p
          | none => acc)
        ""
      some (header ++ defsBlock ++ edgesSvg ++ nodesSvg ++ "</svg>")

/-! ### Diagram renderer (`generate_diagram_svg`, source lines 523-595) -/

/-- Diagram node position (`{"x": ..., "y": ..., "label": ...}`). -/
structure DPos where
  x : ℚ
  y : ℚ
  label : String
deriving Repr

/-- Model of `_border_point` (source lines 945-963).  The taken branch's
divisor is non-zero whenever the guard fails (if `dx = 0` the first ratio is
0 and the `dy` branch is taken, and symmetrically), so exact rational
division is faithful. -/
def border_point (rect : DPos) (w h : ℚ) (target_x target_y : ℚ) : ℚ × ℚ :=
  let cx := rect.x + w / 2
  let cy := rect.y + h / 2
  let dx := target_x - cx
  let dy := target_y - cy
  if dx = 0 && dy = 0 then (cx, cy)
  else
    let abs_dx := |dx|
    let abs_dy := |dy|
    if abs_dx / (w / 2) > abs_dy / (h / 2) then
      (cx + dx * ((w / 2) / abs_dx), cy + dy * ((w / 2) / abs_dx))
    else
      (cx + dx * ((h / 2) / abs_dy), cy + dy * ((h / 2) / abs_dy))

/-- Model of `generate_diagram_svg` (source lines 523-595): radial
placement (through the backend's `pi`/`cos`/`sin`), straight border-clipped
connectors, then the nodes. -/
def generate_diagram_svg (F : NumBackend) (st : DiagSt) : String :=
  let nodes := st.nodes
  let edges := st.edges
  if nodes.isEmpty then ""
  else
    let width : Int := 1000
    let height : Int := 800
    let center_x : ℚ := (width : ℚ) / 2
    let center_y : ℚ := (height : ℚ) / 2
    let radius : ℚ := (min width height : ℚ) / (5 / 2)
    let node_width : Int := 160
    let node_height : Int := 80
    let header :=
      "<svg width=\"" ++ toString width ++ "\" height=\"" ++ toString height
        ++ "\" viewBox=\"0 0 " ++ toString width ++ " " ++ toString height
        ++ "\" xmlns=\"http://www.w3.org/2000/svg\">"
    let defsBlock :=
      "\n        <defs>\n            <marker id=\"arrowhead-diagram\" markerWidth=\"10\" markerHeight=\"10\" refX=\"9\" refY=\"3\" orient=\"auto\">\n                <polygon points=\"0 0, 10 3, 0 6\" fill=\"#667eea\"/>\n            </marker>\n        </defs>\n        "
    let positions : List (String × DPos) := nodes.enum.map fun in0 =>
      let angle : ℚ := (2 * F.pi * (in0.1 : ℚ)) / (nodes.length : ℚ) - F.pi / 2
      let x := center_x + radius * F.cos angle - (node_width : ℚ) / 2
      let y := center_y + radius * F.sin angle - (node_height : ℚ) / 2
      (in0.2.id, ⟨x, y, in0.2.label⟩)
    let getPos : String → Option DPos := fun k =>
      (positions.find? fun p => p.1 == k).map fun p => p.2
    let edgesSvg := edges.foldl
      (fun acc e =>
        match nodes.find? fun n => n.label == e.src,
              nodes.find? fun n => n.label == e.dst with
        | some fn, some tn =>
          match getPos fn.id, getPos tn.id with
          | some fp, some tp =>
            let start := border_point fp (node_width : ℚ) (node_height : ℚ)
              (tp.x + (node_width : ℚ) / 2) (tp.y + (node_height : ℚ) / 2)
            let stop := border_point tp (node_width : ℚ) (node_height : ℚ)
              (fp.x + (node_width : ℚ) / 2) (fp.y + (node_height : ℚ) / 2)
            acc ++ "\n                    <line x1=\"" ++ F.repr start.1 ++ "\" y1=\""
              ++ F.repr start.2 ++ "\" x2=\"" ++ F.repr stop.1 ++ "\" y2=\""
              ++ F.repr stop.2
              ++ "\" \n                          stroke=\"#667eea\" stroke-width=\"2.5\" marker-end=\"url(#arrowhead-diagram)\"/>\n                    "
          | _, _ => acc
        | _, _ => acc)
      ""
    let nodesSvg := nodes.foldl
      (fun acc n =>
        match getPos n.id with
        | some p =>
          acc ++ "\n            <g class=\"node\">\n                <rect x=\"" ++ F.repr p.x
            ++ "\" y=\"" ++ F.repr p.y ++ "\" width=\"" ++ toString node_width
            ++ "\" height=\"" ++ toString node_height
            ++ "\" \n                      rx=\"12\" fill=\"#667eea\" stroke=\"#5568d3\" stroke-width=\"2.5\"/>\n                <text x=\""
            ++ F.repr (p.x + (node_width : ℚ) / 2) ++ "\" y=\""
            ++ F.repr (p.y + (node_height : ℚ) / 2)
            ++ "\" \n                      text-anchor=\"middle\" dominant-baseline=\"middle\" fill=\"white\" \n                      font-size=\"14\" font-weight=\"600\">"
            ++ p.label ++ "</text>\n            </g>\n            "
        | none => acc)
      ""
    header ++ defsBlock ++ edgesSvg ++ nodesSvg ++ "</svg>"

/-! ### Document composer (`generate_html`, source lines 640-763) -/

/-- Python `str.title()` (ASCII model): uppercase a letter that follows a
non-letter, lowercase other letters. -/
def pyTitleAux : Bool → List Char → List Char
  | _, [] => []
  | prevAlpha, c :: cs =>
    (if c.isAlpha && !prevAlpha then c.toUpper
     else if c.isAlpha then c.toLower else c) :: pyTitleAux c.isAlpha cs

/-- Python `str.title()`. -/
def pyTitle (s : String) : String :=
  ⟨pyTitleAux false s.data⟩

/-- The HTML document template (source lines 659-761), as a function of the
title text and the embedded markup. -/
def html_template (title_str svg_content : String) : String :=
  "\n<!DOCTYPE html>\n<html lang=\"en\">\n<head>\n    <meta charset=\"UTF-8\">\n    <meta name=\"viewport\" content=\"width=device-width, initial-scale=1.0\">\n    <title>Visual Agent - "
    ++ title_str
    ++ "</title>\n    <style>\n        * \x7b\n            margin: 0;\n            padding: 0;\n            box-sizing: border-box;\n        \x7d\n        \n        body \x7b\n            font-family: \x27Segoe UI\x27, Tahoma, Geneva, Verdana, sans-serif;\n            background: linear-gradient(135deg, #667eea 0%, #764ba2 100%);\n            min-height: 100vh;\n            padding: 20px;\n        \x7d\n        \n        .container \x7b\n            max-width: 1600px;\n            margin: 0 auto;\n            background: white;\n            border-radius: 12px;\n            box-shadow: 0 20px 40px rgba(0,0,0,0.1);\n            overflow: hidden;\n        \x7d\n        \n        .header \x7b\n            background: linear-gradient(135deg, #2c3e50 0%, #34495e 100%);\n            color: white;\n            padding: 30px;\n            text-align: center;\n        \x7d\n        \n        .header h1 \x7b\n            font-size: 2.5rem;\n            margin-bottom: 10px;\n            font-weight: 300;\n        \x7d\n        \n        .header p \x7b\n            opacity: 0.9;\n            font-size: 1.1rem;\n        \x7d\n        \n        .visual-container \x7b\n            padding: 20px;\n            background: white;\n            display: flex;\n            align-items: flex-start;\n            justify-content: center;\n            min-height: 600px;\n            overflow: auto;\n        \x7d\n        \n        .visual-svg \x7b\n            display: block;\n            max-width: 100%;\n            height: auto;\n        \x7d\n        \n        .node \x7b\n            cursor: pointer;\n            transition: all 0.2s ease;\n        \x7d\n        \n        .node:hover rect,\n        .node:hover ellipse,\n        .node:hover polygon \x7b\n            filter: brightness(1.1);\n            stroke-width: 3;\n        \x7d\n        \n        .connection \x7b\n            transition: all 0.2s ease;\n        \x7d\n        \n        .connection:hover \x7b\n            stroke-width: 3;\n        \x7d\n        \n        .bar:hover \x7b\n            opacity: 0.8;\n        \x7d\n    </style>\n</head>\n<body>\n    <div class=\"container\">\n        <div class=\"header\">\n            <h1>Visual Agent</h1>\n            <p>Generated "
    ++ title_str
    ++ "</p>\n        </div>\n        \n        <div class=\"visual-container\">\n            "
    ++ svg_content
    ++ "\n        </div>\n    </div>\n</body>\n</html>\n        "

/-- The `VisualAgent` object state: its only instance attribute is the
secret-pattern table set in `__init__` (source lines 50-57) and never
mutated by any method. -/
structure VisualAgentSt where
  secret_patterns : List ((Bool → List Char → Option Nat) × List Char)

/-- Model of `VisualAgent.__init__`. -/
def VisualAgentSt.init : VisualAgentSt :=
  ⟨secretPatterns⟩

/-- Model of `generate_html` (source lines 640-763): redact, classify,
parse and render by kind, then wrap in the document template.  Raised
exceptions — the invalid-hint `ValueError`, the chart `ZeroDivisionError`,
the (unreachable) layout `KeyError` — are modelled as `Except.error`. -/
def generate_html_core (F : NumBackend) (agent : VisualAgentSt)
    (text visual_type : String) : Except String String :=
  let redacted_text := redact_secrets agent.secret_patterns text
  match detect_visual_type redacted_text visual_type with
  | .error e => .error e
  | .ok detected =>
    let svgE : Except String String :=
      match detected with
      | .flowchart =>
        match generate_flowchart_svg F (parse_flowchart redacted_text) with
        | some s => .ok s
        | none => .error "KeyError"
      | .diagram => .ok (generate_diagram_svg F (parse_diagram redacted_text))
      | .chart =>
        match generate_chart_svg F (parse_chart redacted_text) with
        | some s => .ok s
        | none => .error "ZeroDivisionError: float division by zero"
    match svgE with
    | .error e => .error e
    | .ok svg_content =>
      .ok (html_template (pyTitle (VisualType.value detected)) svg_content)

/-- Model of a `generate_html` method call on the agent object: the result
paired with the object state after the call (no method assigns to `self`,
so the state is returned unchanged). -/
def generate_html (F : NumBackend) (agent : VisualAgentSt) (text visual_type : String) :
    Except String String × VisualAgentSt :=
  (generate_html_core F agent text visual_type, agent)

/-- C7: for every numeric backend, agent state, input text and kind hint,
the compiler `generate_html` is a deterministic pure function: a call
leaves the agent object's state unchanged (no counter or other state leaks
across calls — all parser state, including the node-id counter, is
allocated per call), and a second invocation with identical arguments,
run on the state left behind by the first, returns byte-identical markup. -/
theorem generate_html_deterministic (F : NumBackend) (agent : VisualAgentSt)
    (text kind : String) :
    (generate_html F agent text kind).2 = agent
    ∧ (generate_html F ((generate_html F agent text kind).2) text kind).1
        = (generate_html F agent text kind).1 :=
  ⟨rfl, rfl⟩

end VA
